import Mathlib

/-!
Verification of the Shardeum MCP server (`src/tools.js`, `src/index.js`,
`src/prompts.js`) against its natural-language specification.

The development shallowly embeds the tool layer of the repository:

* `Json` models the JavaScript/JSON values that flow through the server
  (JSON numbers are restricted to integers, which covers every payload the
  chain RPC produces and every number the tools construct).
* `makeRpcCall` embeds the RPC client of `src/tools.js` (the JSON-RPC 2.0
  envelope, the truthiness test on `response.data.error`, the re-thrown
  error message).  The HTTP transport is an oracle
  `Transport : RpcRequest → TransportResult`; the embedding additionally
  records the list of requests handed to the transport, so "no network
  call was made" is the statement that this trace is empty.
* `runTool` embeds one tool invocation: argument validation against the
  zod schemas transcribed from `src/tools.js`, the positional parameter
  lists, the success formatters (template literals, `parseInt(x, 16)`,
  `JSON.stringify(data, null, 2)`, `toFixed(4)`), and the `catch` branch
  that turns a thrown error into an `isError` text result.
* JavaScript numbers are IEEE-754 binary64.  `roundDouble` models the
  rounding of an exact integer (as produced by `parseInt`) to the nearest
  double, and `nearestDoubleRatio`/`toFixed4Dyadic` model the double
  division by `1e18` and `Number.prototype.toFixed(4)`, all in exact
  integer arithmetic (round to nearest, ties to even; the overflow range
  beyond 2^1024 and the 1e21 switch of `Number.prototype.toString` to
  exponent notation are outside every theorem's hypotheses).
* `jsonStringifyIndent2`/`jsonParse` embed `JSON.stringify(v, null, 2)`
  and `JSON.parse`, over character lists, and the round-trip theorem
  `jsonParse_stringify` proves `parse (emit v) = some v` for every value.
-/

namespace ShardeumMCP

/-! ## JSON / JavaScript values

Mutual presentation (value / array spine / object spine) so that functions
and proofs can recurse mutually.  Object fields are an ordered association
spine: JavaScript objects preserve insertion order, and the bodies the
transport oracle supplies are assumed to have distinct keys, as every
value parsed from a JSON body has. -/

mutual
inductive Json where
  | null
  | bool (b : Bool)
  | num (n : Int)
  | str (s : String)
  | arr (xs : JArr)
  | obj (fs : JObj)
deriving DecidableEq
inductive JArr where
  | nil
  | cons (hd : Json) (tl : JArr)
deriving DecidableEq
inductive JObj where
  | nil
  | cons (key : String) (val : Json) (tl : JObj)
deriving DecidableEq
end

/-- Field access `o.k` on a JavaScript value: `some` the value when the
receiver is an object with the field, `none` (JS `undefined`) otherwise. -/
def jsonGetField : Json → String → Option Json
  | .obj fs, k => jobjGet fs k
  | _, _ => none
where jobjGet : JObj → String → Option Json
  | .nil, _ => none
  | .cons k1 v t, k => if k1 = k then some v else jobjGet t k

/-- JavaScript truthiness of a value (`if (x)`).  The integer-number model
has no `NaN` number, so numeric truthiness is `n ≠ 0`. -/
def jsTruthy : Json → Bool
  | .null => false
  | .bool b => b
  | .num n => n ≠ 0
  | .str s => s ≠ ""
  | .arr _ => true
  | .obj _ => true

/-! ## Decimal digits (structural, so the kernel can evaluate them) -/

def decDigitChar (d : Nat) : Char := Char.ofNat (48 + d)

/-- Decimal digit characters of `n`, most significant first, in front of
`acc`; structural recursion on explicit fuel (adequate whenever `n < fuel`),
so concrete instances reduce in the kernel. -/
def decDigitsGo : Nat → Nat → List Char → List Char
  | 0, _, acc => acc
  | fuel + 1, n, acc =>
      let acc2 := decDigitChar (n % 10) :: acc
      if n < 10 then acc2 else decDigitsGo fuel (n / 10) acc2

/-- The decimal digit characters of `n` (the output of JavaScript number
printing for integers below 10^21). -/
def decChars (n : Nat) : List Char := decDigitsGo (n + 1) n []

/-- The characters of an integer: optional minus sign, then decimal digits.
Matches JavaScript string conversion of an integral number below 10^21. -/
def intChars (i : Int) : List Char :=
  if i < 0 then '-' :: decChars i.natAbs else decChars i.natAbs

mutual
/-- String conversion of a JavaScript value, as a template literal or
`String(x)` performs it: strings verbatim, numbers in decimal, arrays
joined by commas with `null` rendering empty, objects as
`"[object Object]"`. -/
def jsDisplay : Json → String
  | .null => "null"
  | .bool true => "true"
  | .bool false => "false"
  | .num n => String.mk (intChars n)
  | .str s => s
  | .arr xs => jsDisplayItems xs
  | .obj _ => "[object Object]"

/-- `Array.prototype.toString`: elements joined by `","`. -/
def jsDisplayItems : JArr → String
  | .nil => ""
  | .cons v .nil => jsItemStr v
  | .cons v t => jsItemStr v ++ "," ++ jsDisplayItems t

/-- One array element under `Array.prototype.toString`: `null` (and
`undefined`, absent from the model) render as the empty string. -/
def jsItemStr : Json → String
  | .null => ""
  | .bool true => "true"
  | .bool false => "false"
  | .num n => String.mk (intChars n)
  | .str s => s
  | .arr xs => jsDisplayItems xs
  | .obj _ => "[object Object]"
end

/-- String conversion of a possibly-`undefined` value (`none` models
JavaScript `undefined`, which a template literal renders `"undefined"`). -/
def jsDisplayOpt : Option Json → String
  | none => "undefined"
  | some v => jsDisplay v

/-! ## `parseInt(x, 16)` -/

def isWsChar (c : Char) : Bool := c = ' ' || c = '\n' || c = '\t' || c = '\r'

def isDigitChar (c : Char) : Bool := '0' ≤ c && c ≤ '9'

def isHexDigitChar (c : Char) : Bool :=
  isDigitChar c || ('a' ≤ c && c ≤ 'f') || ('A' ≤ c && c ≤ 'F')

/-- Numeric value of a hex digit character (junk characters map to 0; they
are excluded wherever the value matters). -/
def hexCharVal (c : Char) : Nat :=
  if isDigitChar c then c.toNat - 48
  else if 'a' ≤ c && c ≤ 'f' then c.toNat - 87
  else if 'A' ≤ c && c ≤ 'F' then c.toNat - 55
  else 0

/-- The integer denoted by a big-endian list of hex digit characters. -/
def hexDigitsVal (ds : List Char) : Nat :=
  ds.foldl (fun a c => a * 16 + hexCharVal c) 0

def skipWs : List Char → List Char
  | c :: cs => if isWsChar c then skipWs cs else c :: cs
  | [] => []

/-- `parseInt(s, 16)`: skip whitespace, one optional sign, an optional
`0x`/`0X`, then the longest prefix of hex digits; `none` models `NaN`
(no digits).  The mathematical integer value is returned; rounding to a
double happens at the use site (`roundDouble`), as ECMA-262 specifies. -/
def jsParseIntHex (s : String) : Option Int :=
  match skipWs s.data with
  | '-' :: r => (hexPrefixVal r).map (fun n => -(n : Int))
  | '+' :: r => (hexPrefixVal r).map (fun n => (n : Int))
  | r => (hexPrefixVal r).map (fun n => (n : Int))
where
  /-- Value of the longest hex-digit prefix after stripping `0x`/`0X`;
  `none` when that prefix is empty. -/
  hexPrefixVal (cs : List Char) : Option Nat :=
    let cs2 := match cs with
      | '0' :: 'x' :: r => r
      | '0' :: 'X' :: r => r
      | _ => cs
    let ds := cs2.takeWhile isHexDigitChar
    if ds.isEmpty then none else some (hexDigitsVal ds)

/-! ## IEEE-754 binary64 rounding, in integer arithmetic -/

/-- Floor of the base-2 logarithm, by structural recursion on fuel
(adequate whenever `n ≤ fuel`). -/
def natLog2F : Nat → Nat → Nat
  | 0, _ => 0
  | fuel + 1, n => if n ≤ 1 then 0 else natLog2F fuel (n / 2) + 1

def natLog2 (n : Nat) : Nat := natLog2F n n

/-- Round `num / den` to the nearest integer, ties to even (`den > 0`). -/
def roundTiesEvenDiv (num den : Nat) : Nat :=
  let q := num / den
  let r := num % den
  if 2 * r < den then q
  else if den < 2 * r then q + 1
  else if q % 2 = 0 then q else q + 1

/-- The integral double nearest to the integer `n`: exact below 2^53,
otherwise rounded to the nearest multiple of the unit in the last place,
ties to even.  (Overflow to infinity beyond 2^1024 is not modelled; every
theorem's inputs stay far below it.) -/
def roundDouble (n : Nat) : Nat :=
  if n < 2 ^ 53 then n
  else
    let ulp := 2 ^ (natLog2 n - 52)
    roundTiesEvenDiv n ulp * ulp

/-- `roundDouble` extended to integers by sign symmetry, as IEEE-754
rounding is symmetric. -/
def roundDoubleInt (i : Int) : Int :=
  if i < 0 then -(roundDouble i.natAbs : Int) else (roundDouble i.natAbs : Int)

/-- A nonnegative dyadic rational `m · 2^exp`: the exact value of a
nonnegative finite double. -/
structure Dyadic where
  m : Nat
  exp : Int
deriving DecidableEq

/-- Whether `2^e ≤ a / b` (`a, b > 0`), in integer arithmetic. -/
def pow2LeRatio (e : Int) (a b : Nat) : Bool :=
  if 0 ≤ e then b * 2 ^ e.toNat ≤ a else b ≤ a * 2 ^ (-e).toNat

/-- Floor of the base-2 logarithm of `a / b` for `a, b > 0`. -/
def floorLog2Ratio (a b : Nat) : Int :=
  let e0 : Int := (natLog2 a : Int) - (natLog2 b : Int)
  if pow2LeRatio e0 a b then e0 else e0 - 1

/-- The double nearest to `a / b` (`b > 0`), as a dyadic rational: round
the quotient to 53 significant bits, ties to even.  Models the IEEE-754
division of two exactly-represented integers (subnormal and overflow
ranges are outside every use in this development). -/
def nearestDoubleRatio (a b : Nat) : Dyadic :=
  if a = 0 then ⟨0, 0⟩
  else
    let p := floorLog2Ratio a b - 52
    if 0 ≤ p then ⟨roundTiesEvenDiv a (b * 2 ^ p.toNat), p⟩
    else ⟨roundTiesEvenDiv (a * 2 ^ (-p).toNat) b, p⟩

/-- Four decimal digit characters of `m % 10000`, zero-padded. -/
def pad4 (m : Nat) : List Char :=
  [decDigitChar (m / 1000 % 10), decDigitChar (m / 100 % 10),
   decDigitChar (m / 10 % 10), decDigitChar (m % 10)]

/-- `x.toFixed(4)` for a nonnegative double `x = m · 2^exp`: the integer
`n` nearest to `x · 10^4` (ties away from zero, i.e. the larger `n`, per
ECMA-262), rendered as `⌊n/10^4⌋.nnnn`. -/
def toFixed4Dyadic (d : Dyadic) : String :=
  let n :=
    if 0 ≤ d.exp then d.m * 10000 * 2 ^ d.exp.toNat
    else (d.m * 10000 * 2 + 2 ^ (-d.exp).toNat) / 2 ^ ((-d.exp).toNat + 1)
  String.mk (decChars (n / 10000)) ++ "." ++ String.mk (pad4 (n % 10000))

/-- The Wei line of the balance report: `parseInt`'s double printed by the
template literal, `NaN` when parsing failed. -/
def weiDisplay : Option Int → String
  | none => "NaN"
  | some w => String.mk (intChars w)

/-- The ETH line of the balance report: the double `wei / 1e18` rendered
by `toFixed(4)`; `NaN` stays `NaN` through division and `toFixed`. -/
def ethDisplay : Option Int → String
  | none => "NaN"
  | some w =>
      if w < 0 then "-" ++ toFixed4Dyadic (nearestDoubleRatio w.natAbs (10 ^ 18))
      else toFixed4Dyadic (nearestDoubleRatio w.natAbs (10 ^ 18))

/-! ## `JSON.stringify(v, null, 2)` -/

def spacesL : Nat → List Char
  | 0 => []
  | n + 1 => ' ' :: spacesL n

def lowerHexDigitChar (d : Nat) : Char :=
  if d < 10 then Char.ofNat (48 + d) else Char.ofNat (97 + (d - 10))

/-- One character of a JSON string body, escaped as `JSON.stringify`
escapes it: the two-character escapes for quote, backslash, backspace,
tab, newline, form feed and carriage return, `\u00xx` for the remaining
control characters, everything else verbatim. -/
def escChar (c : Char) : List Char :=
  if c = '"' then ['\\', '"']
  else if c = '\\' then ['\\', '\\']
  else if c = '\x08' then ['\\', 'b']
  else if c = '\t' then ['\\', 't']
  else if c = '\n' then ['\\', 'n']
  else if c = '\x0c' then ['\\', 'f']
  else if c = '\r' then ['\\', 'r']
  else if c.toNat < 32 then
    ['\\', 'u', '0', '0', lowerHexDigitChar (c.toNat / 16), lowerHexDigitChar (c.toNat % 16)]
  else [c]

/-- A JSON string literal: quote, escaped body, quote. -/
def quotedChars (s : String) : List Char := '"' :: (s.data.flatMap escChar ++ ['"'])

mutual
/-- `JSON.stringify(v, null, 2)` at indent level `ind`, as characters:
scalars inline, nonempty arrays and objects spread over lines with
two-space indentation, the closer aligned with the opener's line. -/
def emitVal (ind : Nat) : Json → List Char
  | .null => "null".data
  | .bool b => if b then "true".data else "false".data
  | .num n => intChars n
  | .str s => quotedChars s
  | .arr .nil => ['[', ']']
  | .arr (.cons v t) =>
      '[' :: '\n' :: (emitElems (ind + 2) (.cons v t) ++ '\n' :: (spacesL ind ++ [']']))
  | .obj .nil => ['{', '}']
  | .obj (.cons k v t) =>
      '{' :: '\n' :: (emitFields (ind + 2) (.cons k v t) ++ '\n' :: (spacesL ind ++ ['}']))
/-- Indented, comma-and-newline separated array elements. -/
def emitElems (ind : Nat) : JArr → List Char
  | .nil => []
  | .cons v .nil => spacesL ind ++ emitVal ind v
  | .cons v (.cons v2 t2) =>
      spacesL ind ++ emitVal ind v ++ ',' :: '\n' :: emitElems ind (.cons v2 t2)
/-- Indented `"key": value` object fields. -/
def emitFields (ind : Nat) : JObj → List Char
  | .nil => []
  | .cons k v .nil => spacesL ind ++ quotedChars k ++ ':' :: ' ' :: emitVal ind v
  | .cons k v (.cons k2 v2 t2) =>
      spacesL ind ++ quotedChars k ++ ':' :: ' ' :: emitVal ind v ++
        ',' :: '\n' :: emitFields ind (.cons k2 v2 t2)
end

/-- `JSON.stringify(v, null, 2)`. -/
def jsonStringifyIndent2 (v : Json) : String := String.mk (emitVal 0 v)

/-- What follows one array element: nothing, or a comma, a newline and
the remaining elements. -/
def emitElemsSep (ind : Nat) : JArr → List Char
  | .nil => []
  | .cons v t => ',' :: '\n' :: emitElems ind (.cons v t)

/-- What follows one object field: nothing, or a comma, a newline and
the remaining fields. -/
def emitFieldsSep (ind : Nat) : JObj → List Char
  | .nil => []
  | .cons k v t => ',' :: '\n' :: emitFields ind (.cons k v t)

/-! ## The RPC client (`makeRpcCall` in `src/tools.js`) -/

/-- The JSON-RPC request envelope `makeRpcCall` posts. -/
structure RpcRequest where
  jsonrpc : String
  id : Nat
  method : String
  params : List Json
deriving DecidableEq

/-- What one HTTP POST of the envelope comes back as: `ok body` a 2xx
response whose JSON body is `body` (axios has already parsed it), `fail m`
an axios rejection (network failure, timeout, non-2xx status) whose
`error.message` is `m`. -/
inductive TransportResult where
  | ok (body : Json)
  | fail (message : String)

/-- The HTTP layer as an oracle from the posted envelope to its outcome. -/
abbrev Transport := RpcRequest → TransportResult

def mkRequest (method : String) (params : List Json) : RpcRequest :=
  { jsonrpc := "2.0", id := 1, method := method, params := params }

/-- The outcome of `makeRpcCall`, together with the trace of envelopes it
handed to the transport.  `outcome` is `.error m` when the JavaScript
function rejects with an error whose message is `m` (the `catch` in
`makeRpcCall` logs and re-throws, so the error propagates unchanged), and
`.ok r` when it returns `response.data.result` (`none` models the field
being absent, i.e. `undefined`). -/
structure RpcCallResult where
  requests : List RpcRequest
  outcome : Except String (Option Json)

/-- `${response.data.error.message}`: the `message` field of the error
value, rendered by the template literal; `undefined` when absent. -/
def errorFieldMessage (e : Json) : String := jsDisplayOpt (jsonGetField e "message")

/-- What the RPC client makes of the transport's answer to the posted
envelope: `if (response.data.error) throw new Error("RPC Error: " +
message)` else return `response.data.result`; a transport failure
propagates as the axios error (the `catch` in `makeRpcCall` logs and
re-throws, leaving it unchanged). -/
def rpcOutcome (method : String) (params : List Json) (transport : Transport) :
    Except String (Option Json) :=
  match transport (mkRequest method params) with
  | .fail msg => .error msg
  | .ok body =>
      match jsonGetField body "error" with
      | some e =>
          if jsTruthy e then .error ("RPC Error: " ++ errorFieldMessage e)
          else .ok (jsonGetField body "result")
      | none => .ok (jsonGetField body "result")

/-- The RPC client of `src/tools.js`: post `{jsonrpc:"2.0", id:1, method,
params}` — exactly one request — and settle as `rpcOutcome` reads the
response. -/
def makeRpcCall (method : String) (params : List Json) (transport : Transport) :
    RpcCallResult :=
  { requests := [mkRequest method params], outcome := rpcOutcome method params transport }

/-! ## Argument schemas (the zod object schemas of `src/tools.js`) -/

/-- A tool's argument mapping: field name to JSON value, as the MCP call
delivers it. -/
abbrev ArgsMap := List (String × Json)

def lookupArg : ArgsMap → String → Option Json
  | [], _ => none
  | (k1, v) :: t, k => if k1 = k then some v else lookupArg t k

/-- `^0x[a-fA-F0-9]{40}$`. -/
def matchesHexAddr (s : String) : Bool :=
  match s.data with
  | '0' :: 'x' :: ds => ds.length = 40 && ds.all isHexDigitChar
  | _ => false

/-- `^0x[a-fA-F0-9]{64}$`. -/
def matchesHexHash (s : String) : Bool :=
  match s.data with
  | '0' :: 'x' :: ds => ds.length = 64 && ds.all isHexDigitChar
  | _ => false

/-- `^0x[a-fA-F0-9]+$`. -/
def matchesHexQty (s : String) : Bool :=
  match s.data with
  | '0' :: 'x' :: ds => !ds.isEmpty && ds.all isHexDigitChar
  | _ => false

/-- A required `z.string().regex(p)` field. -/
def reqPatternField (args : ArgsMap) (k : String) (p : String → Bool) : Option String :=
  match lookupArg args k with
  | some (.str s) => if p s then some s else none
  | _ => none

/-- An optional `z.string().regex(p).optional()` field: `some none` when
absent, `some (some s)` when present and matching, `none` on failure. -/
def optPatternField (args : ArgsMap) (k : String) (p : String → Bool) :
    Option (Option String) :=
  match lookupArg args k with
  | none => some none
  | some (.str s) => if p s then some (some s) else none
  | some _ => none

/-- An optional unconstrained `z.string().optional()` field. -/
def optStrField (args : ArgsMap) (k : String) : Option (Option String) :=
  match lookupArg args k with
  | none => some none
  | some (.str s) => some (some s)
  | some _ => none

/-- A `z.string().default(d)` (or `.optional().default(d)`) field. -/
def strFieldWithDefault (args : ArgsMap) (k d : String) : Option String :=
  match lookupArg args k with
  | none => some d
  | some (.str s) => some s
  | some _ => none

/-- A `z.boolean().default(d)` field. -/
def boolFieldWithDefault (args : ArgsMap) (k : String) (d : Bool) : Option Bool :=
  match lookupArg args k with
  | none => some d
  | some (.bool b) => some b
  | some _ => none

/-- A `z.number().optional().default(d)` field. -/
def numFieldWithDefault (args : ArgsMap) (k : String) (d : Int) : Option Int :=
  match lookupArg args k with
  | none => some d
  | some (.num n) => some n
  | some _ => none

/-- A `z.number().optional()` field. -/
def optNumField (args : ArgsMap) (k : String) : Option (Option Int) :=
  match lookupArg args k with
  | none => some none
  | some (.num n) => some (some n)
  | some _ => none

/-- The sixteen tools `registerTools` registers, named as in the source. -/
inductive Tool where
  | eth_getBalance
  | eth_blockNumber
  | eth_getTransactionCount
  | eth_getBlockTransactionCountByHash
  | eth_getBlockTransactionCountByNumber
  | eth_estimateGas
  | eth_getBlockByHash
  | eth_getBlockByNumber
  | eth_getBlockReceipts
  | eth_getTransactionByHash
  | eth_getTransactionByBlockHashAndIndex
  | eth_getTransactionByBlockNumberAndIndex
  | eth_getTransactionReceipt
  | eth_chainId
  | shardeum_getNodeList
  | shardeum_getNetworkAccount
  | shardeum_getCycleInfo
deriving DecidableEq

/-- The RPC method name each tool invokes: identical to the tool name. -/
def toolMethod : Tool → String
  | .eth_getBalance => "eth_getBalance"
  | .eth_blockNumber => "eth_blockNumber"
  | .eth_getTransactionCount => "eth_getTransactionCount"
  | .eth_getBlockTransactionCountByHash => "eth_getBlockTransactionCountByHash"
  | .eth_getBlockTransactionCountByNumber => "eth_getBlockTransactionCountByNumber"
  | .eth_estimateGas => "eth_estimateGas"
  | .eth_getBlockByHash => "eth_getBlockByHash"
  | .eth_getBlockByNumber => "eth_getBlockByNumber"
  | .eth_getBlockReceipts => "eth_getBlockReceipts"
  | .eth_getTransactionByHash => "eth_getTransactionByHash"
  | .eth_getTransactionByBlockHashAndIndex => "eth_getTransactionByBlockHashAndIndex"
  | .eth_getTransactionByBlockNumberAndIndex => "eth_getTransactionByBlockNumberAndIndex"
  | .eth_getTransactionReceipt => "eth_getTransactionReceipt"
  | .eth_chainId => "eth_chainId"
  | .shardeum_getNodeList => "shardeum_getNodeList"
  | .shardeum_getNetworkAccount => "shardeum_getNetworkAccount"
  | .shardeum_getCycleInfo => "shardeum_getCycleInfo"

/-- A parsed optional string field re-packed into an args map fragment. -/
def optEntry (k : String) : Option String → ArgsMap
  | none => []
  | some s => [(k, .str s)]

/-- A parsed optional number field re-packed into an args map fragment. -/
def optNumEntry (k : String) : Option Int → ArgsMap
  | none => []
  | some n => [(k, .num n)]

/-- Argument validation, one tool at a time: the zod object schema from
`src/tools.js`, transcribed field by field (regex patterns, optionality,
defaults).  `none` is a validation failure; `some p` is the parsed
argument object handed to the handler, with defaults filled in.  Unknown
keys are stripped, as `z.object` strips them. -/
def parseToolArgs : Tool → ArgsMap → Option ArgsMap
  | .eth_getBalance, args => do
      let a ← reqPatternField args "address" matchesHexAddr
      let bp ← strFieldWithDefault args "blockParameter" "latest"
      pure [("address", .str a), ("blockParameter", .str bp)]
  | .eth_blockNumber, _ => some []
  | .eth_getTransactionCount, args => do
      let a ← reqPatternField args "address" matchesHexAddr
      let bp ← strFieldWithDefault args "blockParameter" "latest"
      pure [("address", .str a), ("blockParameter", .str bp)]
  | .eth_getBlockTransactionCountByHash, args => do
      let h ← reqPatternField args "blockHash" matchesHexHash
      pure [("blockHash", .str h)]
  | .eth_getBlockTransactionCountByNumber, args => do
      let n ← reqPatternField args "blockNumber" matchesHexQty
      pure [("blockNumber", .str n)]
  | .eth_estimateGas, args => do
      let f ← optPatternField args "from" matchesHexAddr
      let t ← optPatternField args "to" matchesHexAddr
      let v ← optStrField args "value"
      let d ← optStrField args "data"
      pure (optEntry "from" f ++ optEntry "to" t ++ optEntry "value" v ++ optEntry "data" d)
  | .eth_getBlockByHash, args => do
      let h ← reqPatternField args "blockHash" matchesHexHash
      let ft ← boolFieldWithDefault args "fullTransactions" false
      pure [("blockHash", .str h), ("fullTransactions", .bool ft)]
  | .eth_getBlockByNumber, args => do
      let n ← reqPatternField args "blockNumber" matchesHexQty
      let ft ← boolFieldWithDefault args "fullTransactions" false
      pure [("blockNumber", .str n), ("fullTransactions", .bool ft)]
  | .eth_getBlockReceipts, args => do
      let s ← (match lookupArg args "blockNumberOrHash" with
               | some (.str s) => some s
               | _ => none)
      pure [("blockNumberOrHash", .str s)]
  | .eth_getTransactionByHash, args => do
      let h ← reqPatternField args "txHash" matchesHexHash
      pure [("txHash", .str h)]
  | .eth_getTransactionByBlockHashAndIndex, args => do
      let h ← reqPatternField args "blockHash" matchesHexHash
      let i ← reqPatternField args "transactionIndex" matchesHexQty
      pure [("blockHash", .str h), ("transactionIndex", .str i)]
  | .eth_getTransactionByBlockNumberAndIndex, args => do
      let n ← reqPatternField args "blockNumber" matchesHexQty
      let i ← reqPatternField args "transactionIndex" matchesHexQty
      pure [("blockNumber", .str n), ("transactionIndex", .str i)]
  | .eth_getTransactionReceipt, args => do
      let h ← reqPatternField args "txHash" matchesHexHash
      pure [("txHash", .str h)]
  | .eth_chainId, _ => some []
  | .shardeum_getNodeList, args => do
      let pg ← numFieldWithDefault args "page" 1
      let lim ← numFieldWithDefault args "limit" 100
      pure [("page", .num pg), ("limit", .num lim)]
  | .shardeum_getNetworkAccount, _ => some []
  | .shardeum_getCycleInfo, args => do
      let c ← optNumField args "cycleNumber"
      pure (optNumEntry "cycleNumber" c)

/-- One field of the parsed argument object, `Json.null` standing in for
the impossible absent case (validation always populates the fields the
builders read). -/
def argVal (p : ArgsMap) (k : String) : Json := (lookupArg p k).getD .null

/-- One field of the parsed argument object as interpolated text. -/
def argDisp (p : ArgsMap) (k : String) : String := jsDisplayOpt (lookupArg p k)

/-- The `params` object of `eth_estimateGas`: `{}` plus each of `from`,
`to`, `value`, `data` that is present and truthy (`if (args.from)
params.from = args.from`, etc.), in source order. -/
def egField (p : ArgsMap) (k : String) (rest : JObj) : JObj :=
  match lookupArg p k with
  | some v => if jsTruthy v then .cons k v rest else rest
  | none => rest

def egParamsObj (p : ArgsMap) : JObj :=
  egField p "from" (egField p "to" (egField p "value" (egField p "data" .nil)))

/-- The positional parameter list each handler passes to `makeRpcCall`,
from the parsed arguments. -/
def buildParams : Tool → ArgsMap → List Json
  | .eth_getBalance, p => [argVal p "address", argVal p "blockParameter"]
  | .eth_blockNumber, _ => []
  | .eth_getTransactionCount, p => [argVal p "address", argVal p "blockParameter"]
  | .eth_getBlockTransactionCountByHash, p => [argVal p "blockHash"]
  | .eth_getBlockTransactionCountByNumber, p => [argVal p "blockNumber"]
  | .eth_estimateGas, p => [.obj (egParamsObj p)]
  | .eth_getBlockByHash, p => [argVal p "blockHash", argVal p "fullTransactions"]
  | .eth_getBlockByNumber, p => [argVal p "blockNumber", argVal p "fullTransactions"]
  | .eth_getBlockReceipts, p => [argVal p "blockNumberOrHash"]
  | .eth_getTransactionByHash, p => [argVal p "txHash"]
  | .eth_getTransactionByBlockHashAndIndex, p =>
      [argVal p "blockHash", argVal p "transactionIndex"]
  | .eth_getTransactionByBlockNumberAndIndex, p =>
      [argVal p "blockNumber", argVal p "transactionIndex"]
  | .eth_getTransactionReceipt, p => [argVal p "txHash"]
  | .eth_chainId, _ => []
  | .shardeum_getNodeList, p =>
      [.obj (.cons "page" (argVal p "page") (.cons "limit" (argVal p "limit") .nil))]
  | .shardeum_getNetworkAccount, _ => []
  | .shardeum_getCycleInfo, p =>
      match lookupArg p "cycleNumber" with
      | some v => [v]
      | none => []

/-- `parseInt(result, 16)` followed by the implicit rounding of the
mathematical value to a double, as each hex-quantity handler performs. -/
def parsedDec (r : Option Json) : Option Int :=
  (jsParseIntHex (jsDisplayOpt r)).map roundDoubleInt

/-- A `parseInt` result printed by a template literal (`NaN` when the
parse produced no digits). -/
def jsNumDisplay : Option Int → String
  | none => "NaN"
  | some n => String.mk (intChars n)

/-- The success text of each handler: the template literal (hex-quantity
tools), the balance report, or `JSON.stringify(result, null, 2)`
(structured tools, where an `undefined` result makes the `text` field
itself `undefined`, modelled as `none`). -/
def okText : Tool → ArgsMap → Option Json → Option String
  | .eth_getBalance, p, r =>
      some ("Balance for " ++ argDisp p "address" ++ " at block " ++
        argDisp p "blockParameter" ++ ":\n- Wei: " ++ jsNumDisplay (parsedDec r) ++
        "\n- ETH: " ++ ethDisplay (parsedDec r))
  | .eth_blockNumber, _, r =>
      some ("Current Block Number: " ++ jsNumDisplay (parsedDec r) ++
        " (" ++ jsDisplayOpt r ++ ")")
  | .eth_getTransactionCount, p, r =>
      some ("Transaction Count for " ++ argDisp p "address" ++ " at " ++
        argDisp p "blockParameter" ++ " block: " ++ jsNumDisplay (parsedDec r) ++
        " (" ++ jsDisplayOpt r ++ ")")
  | .eth_getBlockTransactionCountByHash, p, r =>
      some ("Transaction Count for Block Hash " ++ argDisp p "blockHash" ++ ": " ++
        jsNumDisplay (parsedDec r) ++ " (" ++ jsDisplayOpt r ++ ")")
  | .eth_getBlockTransactionCountByNumber, p, r =>
      some ("Transaction Count for Block Number " ++ argDisp p "blockNumber" ++ ": " ++
        jsNumDisplay (parsedDec r) ++ " (" ++ jsDisplayOpt r ++ ")")
  | .eth_estimateGas, _, r =>
      some ("Estimated Gas Required: " ++ jsNumDisplay (parsedDec r) ++
        " (" ++ jsDisplayOpt r ++ ")")
  | .eth_chainId, _, r =>
      some ("Chain ID: " ++ jsNumDisplay (parsedDec r) ++ " (" ++ jsDisplayOpt r ++ ")")
  | _, _, r => r.map jsonStringifyIndent2

/-- The error-report head of each handler's `catch` branch (the text
before the interpolated `error.message`). -/
def errHead : Tool → String
  | .eth_getBalance => "Error: Failed to get balance. "
  | .eth_blockNumber => "Error: Failed to get block number. "
  | .eth_getTransactionCount => "Error: Failed to get transaction count. "
  | .eth_getBlockTransactionCountByHash => "Error: Failed to get block transaction count. "
  | .eth_getBlockTransactionCountByNumber => "Error: Failed to get block transaction count. "
  | .eth_estimateGas => "Error: Failed to estimate gas. "
  | .eth_getBlockByHash => "Error: Failed to get block by hash. "
  | .eth_getBlockByNumber => "Error: Failed to get block by number. "
  | .eth_getBlockReceipts => "Error: Failed to get block receipts. "
  | .eth_getTransactionByHash => "Error: Failed to get transaction by hash. "
  | .eth_getTransactionByBlockHashAndIndex =>
      "Error: Failed to get transaction by block hash and index. "
  | .eth_getTransactionByBlockNumberAndIndex =>
      "Error: Failed to get transaction by block number and index. "
  | .eth_getTransactionReceipt => "Error: Failed to get transaction receipt. "
  | .eth_chainId => "Error: Failed to get chain ID. "
  | .shardeum_getNodeList => "Error: Failed to get node list. "
  | .shardeum_getNetworkAccount => "Error: Failed to get network account. "
  | .shardeum_getCycleInfo => "Error: Failed to get cycle information. "

/-- One `content` entry of a tool result (`text` is `none` when the
JavaScript value of the field is `undefined`). -/
structure ContentItem where
  ctype : String
  text : Option String
deriving DecidableEq

/-- A tool handler's return value; `isError` is absent (hence falsy) on
success in the source, modelled as `false`. -/
structure ToolResult where
  content : List ContentItem
  isError : Bool
deriving DecidableEq

/-- What a tool invocation comes to at the caller: `rejected` when the
arguments failed schema validation (the invocation never reaches the
handler), `completed r` when the handler ran and returned `r`. -/
inductive RunOutcome where
  | rejected
  | completed (r : ToolResult)
deriving DecidableEq

/-- One tool invocation end to end: the envelopes posted and the outcome. -/
structure ToolRun where
  requests : List RpcRequest
  outcome : RunOutcome
deriving DecidableEq

/-- One tool invocation.  Modelled from the spec insofar as the ordering
"schema validated → RPC client called" is enforced by the MCP SDK
(`server.tool`), outside this repository; the schemas, the handler bodies
and the `catch` conversion to an `isError` text result are transcribed
from `src/tools.js`.  The handler body is total: every failure of
`makeRpcCall` is caught and becomes the `catch` branch's report. -/
def runTool (t : Tool) (args : ArgsMap) (transport : Transport) : ToolRun :=
  match parseToolArgs t args with
  | none => { requests := [], outcome := .rejected }
  | some p =>
      let c := makeRpcCall (toolMethod t) (buildParams t p) transport
      match c.outcome with
      | .ok r =>
          { requests := c.requests,
            outcome := .completed
              { content := [{ ctype := "text", text := okText t p r }], isError := false } }
      | .error m =>
          { requests := c.requests,
            outcome := .completed
              { content := [{ ctype := "text", text := some (errHead t ++ m) }],
                isError := true } }

/-! ## `JSON.parse` (a recursive-descent parser over characters)

Structural recursion on explicit fuel throughout, so the kernel can run the
parser on concrete inputs.  The grammar is JSON with integer numbers (the
view of JSON this development's `Json` takes throughout). -/

/-- The longest digit prefix and the remainder. -/
def digitSpan : List Char → List Char × List Char
  | c :: cs =>
      if isDigitChar c then
        let (ds, r) := digitSpan cs
        (c :: ds, r)
      else ([], c :: cs)
  | [] => ([], [])

/-- The natural number a big-endian list of decimal digit characters
denotes. -/
def decDigitsVal (ds : List Char) : Nat :=
  ds.foldl (fun a c => a * 10 + (c.toNat - 48)) 0

/-- Numeric value of a hex digit character, `none` when it is no hex
digit (for `\uXXXX` escapes). -/
def hexDigitVal? (c : Char) : Option Nat :=
  if isHexDigitChar c then some (hexCharVal c) else none

/-- One short escape (`\"`, `\\`, `\/`, `\b`, `\f`, `\n`, `\r`, `\t`). -/
def shortEscape : Char → Option Char
  | '"' => some '"'
  | '\\' => some '\\'
  | '/' => some '/'
  | 'b' => some '\x08'
  | 'f' => some '\x0c'
  | 'n' => some '\n'
  | 'r' => some '\r'
  | 't' => some '\t'
  | _ => none

/-- The body of a JSON string after its opening quote: accumulate
characters (unescaping `\uXXXX` and the short escapes) until the closing
quote. -/
def parseStringBody (acc : List Char) : List Char → Option (String × List Char)
  | [] => none
  | c :: rest =>
      if c = '"' then some (String.mk acc.reverse, rest)
      else if c = '\\' then
        match rest with
        | 'u' :: x1 :: x2 :: x3 :: x4 :: rest2 =>
            match hexDigitVal? x1, hexDigitVal? x2, hexDigitVal? x3, hexDigitVal? x4 with
            | some a, some b, some d, some e =>
                parseStringBody (Char.ofNat (((a * 16 + b) * 16 + d) * 16 + e) :: acc) rest2
            | _, _, _, _ => none
        | e :: rest2 =>
            match shortEscape e with
            | some ch => parseStringBody (ch :: acc) rest2
            | none => none
        | [] => none
      else parseStringBody (c :: acc) rest

/-- A keyword such as `ull` after the `n` of `null`: match it and return
the remainder. -/
def expectChars : List Char → List Char → Option (List Char)
  | [], rest => some rest
  | e :: es, c :: rest => if c = e then expectChars es rest else none
  | _ :: _, [] => none

mutual
/-- One JSON value, after optional whitespace.  Fuel decreases at every
mutual call; `skipWs` and the scalar scanners are fuel-free. -/
def parseVal : Nat → List Char → Option (Json × List Char)
  | 0, _ => none
  | fuel + 1, cs =>
      match skipWs cs with
      | [] => none
      | c :: r =>
          if c = 'n' then (expectChars ['u', 'l', 'l'] r).map (fun r2 => (.null, r2))
          else if c = 't' then (expectChars ['r', 'u', 'e'] r).map (fun r2 => (.bool true, r2))
          else if c = 'f' then (expectChars ['a', 'l', 's', 'e'] r).map (fun r2 => (.bool false, r2))
          else if c = '"' then (parseStringBody [] r).map (fun p => (.str p.1, p.2))
          else if c = '[' then
            match skipWs r with
            | [] => none
            | c2 :: r2 =>
                if c2 = ']' then some (.arr .nil, r2)
                else
                  match parseVal fuel (c2 :: r2) with
                  | some (v, r3) =>
                      match parseArrTail fuel r3 with
                      | some (t, r4) => some (.arr (.cons v t), r4)
                      | none => none
                  | none => none
          else if c = '{' then
            match skipWs r with
            | [] => none
            | c2 :: r2 =>
                if c2 = '}' then some (.obj .nil, r2)
                else
                  match parseObjField fuel (c2 :: r2) with
                  | some (k, v, r3) =>
                      match parseObjTail fuel r3 with
                      | some (t, r4) => some (.obj (.cons k v t), r4)
                      | none => none
                  | none => none
          else if c = '-' then
            match digitSpan r with
            | ([], _) => none
            | (ds, r2) => some (.num (-(decDigitsVal ds : Int)), r2)
          else if isDigitChar c then
            match digitSpan (c :: r) with
            | ([], _) => none
            | (ds, r2) => some (.num (decDigitsVal ds : Int), r2)
          else none
/-- After an array element: `,` and another element, or `]`. -/
def parseArrTail : Nat → List Char → Option (JArr × List Char)
  | 0, _ => none
  | fuel + 1, cs =>
      match skipWs cs with
      | [] => none
      | c :: r =>
          if c = ']' then some (.nil, r)
          else if c = ',' then
            match parseVal fuel r with
            | some (v, r2) =>
                match parseArrTail fuel r2 with
                | some (t, r3) => some (.cons v t, r3)
                | none => none
            | none => none
          else none
/-- One `"key": value` object field. -/
def parseObjField : Nat → List Char → Option (String × Json × List Char)
  | 0, _ => none
  | fuel + 1, cs =>
      match skipWs cs with
      | '"' :: r =>
          match parseStringBody [] r with
          | some (k, r1) =>
              match skipWs r1 with
              | ':' :: r2 =>
                  match parseVal fuel r2 with
                  | some (v, r3) => some (k, v, r3)
                  | none => none
              | _ => none
          | none => none
      | _ => none
/-- After an object field: `,` and another field, or the closing brace. -/
def parseObjTail : Nat → List Char → Option (JObj × List Char)
  | 0, _ => none
  | fuel + 1, cs =>
      match skipWs cs with
      | [] => none
      | c :: r =>
          if c = '}' then some (.nil, r)
          else if c = ',' then
            match parseObjField fuel r with
            | some (k, v, r2) =>
                match parseObjTail fuel r2 with
                | some (t, r3) => some (.cons k v t, r3)
                | none => none
            | none => none
          else none
end

/-- `JSON.parse(s)` (over the integer-number JSON grammar): parse one
value with ample fuel, requiring only whitespace after it. -/
def jsonParse (s : String) : Option Json :=
  match parseVal (s.data.length + 1) s.data with
  | some (v, r) => if (skipWs r).isEmpty then some v else none
  | none => none

/-- A remainder that cannot extend a parsed number: empty or headed by a
non-digit.  Every delimiter the emitter places after a value (`,`, a
newline, `]`, the closing brace, end of input) qualifies. -/
def delimOk : List Char → Bool
  | [] => true
  | c :: _ => !isDigitChar c

/-! ## Statement helpers -/

/-- Does `l` start with `p`? -/
def listStarts (l p : List Char) : Bool :=
  match p with
  | [] => true
  | e :: es =>
      match l with
      | [] => false
      | c :: t => c = e && listStarts t es
termination_by structural p

/-- Does `seg` occur contiguously in `l`? -/
def listHasSeg (l seg : List Char) : Bool :=
  match l with
  | [] => seg.isEmpty
  | _ :: t => listStarts l seg || listHasSeg t seg

/-- Does the string `sub` occur contiguously in `hay`? -/
def strHas (hay sub : String) : Bool := listHasSeg hay.data sub.data

/-- A handler return value with a single text content entry. -/
def textResult (txt : Option String) (e : Bool) : ToolResult :=
  { content := [{ ctype := "text", text := txt }], isError := e }

/-- The text of a completed run's single content entry. -/
def firstText (run : ToolRun) : Option String :=
  match run.outcome with
  | .completed r =>
      match r.content with
      | [ci] => ci.text
      | _ => none
  | .rejected => none

/-- The tools whose success path is `parseInt(result, 16)` reported next
to the raw result. -/
def hexQuantityTools : List Tool :=
  [.eth_blockNumber, .eth_chainId, .eth_getTransactionCount,
   .eth_getBlockTransactionCountByHash, .eth_getBlockTransactionCountByNumber,
   .eth_estimateGas]

/-- The tools whose success path is `JSON.stringify(result, null, 2)`. -/
def structuredTools : List Tool :=
  [.eth_getBlockByHash, .eth_getBlockByNumber, .eth_getBlockReceipts,
   .eth_getTransactionByHash, .eth_getTransactionByBlockHashAndIndex,
   .eth_getTransactionByBlockNumberAndIndex, .eth_getTransactionReceipt,
   .shardeum_getNodeList, .shardeum_getNetworkAccount, .shardeum_getCycleInfo]

/-- The fields of each tool that the schemas constrain to
`^0x[a-fA-F0-9]{40}$`. -/
def addressFieldNames : Tool → List String
  | .eth_getBalance => ["address"]
  | .eth_getTransactionCount => ["address"]
  | .eth_estimateGas => ["from", "to"]
  | _ => []

/-! ## Substring and trace lemmas -/

theorem listStarts_self_append (p rest : List Char) : listStarts (p ++ rest) p = true := by
  induction p with
  | nil => rfl
  | cons c t ih => simp [listStarts, ih]

theorem listHasSeg_of_starts (l seg : List Char) (h : listStarts l seg = true) :
    listHasSeg l seg = true := by
  cases l with
  | nil =>
      cases seg with
      | nil => rfl
      | cons c t => simp [listStarts] at h
  | cons c t => simp [listHasSeg, h]

theorem listHasSeg_append_left (x : List Char) {l seg : List Char}
    (h : listHasSeg l seg = true) : listHasSeg (x ++ l) seg = true := by
  induction x with
  | nil => simpa using h
  | cons c t ih => simp [listHasSeg, ih]

theorem listHasSeg_decomp (u m w : List Char) : listHasSeg (u ++ (m ++ w)) m = true :=
  listHasSeg_append_left u (listHasSeg_of_starts _ _ (listStarts_self_append m w))

theorem strHas_of_data (hay m : String) (u w : List Char)
    (h : hay.data = u ++ (m.data ++ w)) : strHas hay m = true := by
  have := listHasSeg_decomp u m.data w
  simpa [strHas, h] using this

theorem makeRpcCall_requests (m : String) (ps : List Json) (T : Transport) :
    (makeRpcCall m ps T).requests = [mkRequest m ps] := rfl

theorem makeRpcCall_rpc_error (m : String) (ps : List Json) {T : Transport}
    {body err : Json} {msg : String}
    (hT : T (mkRequest m ps) = .ok body)
    (he : jsonGetField body "error" = some err)
    (ht : jsTruthy err = true)
    (hm : jsonGetField err "message" = some (.str msg)) :
    (makeRpcCall m ps T).outcome = .error ("RPC Error: " ++ msg) := by
  simp [makeRpcCall, rpcOutcome, hT, he, ht, errorFieldMessage, hm, jsDisplayOpt, jsDisplay]

theorem makeRpcCall_transport_error (m : String) (ps : List Json) {T : Transport}
    {msg : String} (hT : T (mkRequest m ps) = .fail msg) :
    (makeRpcCall m ps T).outcome = .error msg := by
  simp [makeRpcCall, rpcOutcome, hT]

theorem runTool_requests {t : Tool} {args p : ArgsMap} (T : Transport)
    (hp : parseToolArgs t args = some p) :
    (runTool t args T).requests = [mkRequest (toolMethod t) (buildParams t p)] := by
  simp only [runTool, hp]
  split <;> rfl

theorem runTool_rejected {t : Tool} {args : ArgsMap} (T : Transport)
    (hp : parseToolArgs t args = none) :
    runTool t args T = { requests := [], outcome := .rejected } := by
  simp [runTool, hp]

theorem runTool_ok {t : Tool} {args p : ArgsMap} {T : Transport} {r : Option Json}
    (hp : parseToolArgs t args = some p)
    (hout : (makeRpcCall (toolMethod t) (buildParams t p) T).outcome = .ok r) :
    (runTool t args T).outcome = .completed (textResult (okText t p r) false) := by
  simp only [runTool, hp, hout, textResult]

theorem runTool_err {t : Tool} {args p : ArgsMap} {T : Transport} {m : String}
    (hp : parseToolArgs t args = some p)
    (hout : (makeRpcCall (toolMethod t) (buildParams t p) T).outcome = .error m) :
    (runTool t args T).outcome = .completed (textResult (some (errHead t ++ m)) true) := by
  simp only [runTool, hp, hout, textResult]

/-! ## C9: the wire envelope -/

/-- C9: every envelope the RPC client hands to the transport is exactly
`{jsonrpc: "2.0", id: 1, method, params}` — the `id` fixed at 1, never
incremented — and every tool invocation that passes validation posts
exactly one such request. -/
theorem rpc_envelope_fixed_id :
    (∀ (m : String) (ps : List Json) (T : Transport),
      (makeRpcCall m ps T).requests =
        [{ jsonrpc := "2.0", id := 1, method := m, params := ps }]) ∧
    (∀ (t : Tool) (args p : ArgsMap) (T : Transport), parseToolArgs t args = some p →
      (runTool t args T).requests =
        [{ jsonrpc := "2.0", id := 1, method := toolMethod t, params := buildParams t p }]) :=
  ⟨fun m ps T => makeRpcCall_requests m ps T,
   fun _ _ _ T hp => runTool_requests T hp⟩

/-- Witness for C9 at a concrete method, tool and transport. -/
theorem rpc_envelope_fixed_id_witness :
    (makeRpcCall "eth_blockNumber" [] (fun _ => .ok .null)).requests =
      [{ jsonrpc := "2.0", id := 1, method := "eth_blockNumber", params := [] }] ∧
    (runTool .eth_blockNumber [] (fun _ => .ok .null)).requests =
      [{ jsonrpc := "2.0", id := 1, method := "eth_blockNumber", params := [] }] :=
  ⟨rpc_envelope_fixed_id.1 "eth_blockNumber" [] _,
   rpc_envelope_fixed_id.2 .eth_blockNumber [] [] _ rfl⟩

/-! ## C4: the RPC client on a remote error object -/

/-- C4 counterexample: on a response whose `error` object carries code
`-32000` and message `"oops"`, `makeRpcCall` fails with
`"RPC Error: oops"` — the remote message, but no trace of the remote
code, refuting "an error carrying both the remote error's code and its
message". -/
theorem rpc_error_lacks_code_counterexample :
    (makeRpcCall "eth_blockNumber" []
        (fun _ => .ok (.obj (.cons "error"
          (.obj (.cons "code" (.num (-32000)) (.cons "message" (.str "oops") .nil)))
          .nil)))).outcome = .error "RPC Error: oops" ∧
    strHas "RPC Error: oops" "-32000" = false ∧
    strHas "RPC Error: oops" "32000" = false :=
  ⟨rfl, by decide, by decide⟩

/-- C4 amended: on a response containing a truthy `error` object,
`makeRpcCall` fails with an error carrying the remote message (prefixed
`"RPC Error: "`) — but not the remote code — and posts exactly one
request (no retry). -/
theorem rpc_error_carries_message (m : String) (ps : List Json) (T : Transport)
    (body err : Json) (msg : String)
    (hT : T (mkRequest m ps) = .ok body)
    (he : jsonGetField body "error" = some err)
    (ht : jsTruthy err = true)
    (hm : jsonGetField err "message" = some (.str msg)) :
    (makeRpcCall m ps T).outcome = .error ("RPC Error: " ++ msg) ∧
    (makeRpcCall m ps T).requests = [mkRequest m ps] :=
  ⟨makeRpcCall_rpc_error m ps hT he ht hm, makeRpcCall_requests m ps T⟩

/-- Witness for the amended C4 at a concrete error body. -/
theorem rpc_error_carries_message_witness :
    (makeRpcCall "eth_chainId" []
        (fun _ => .ok (.obj (.cons "error"
          (.obj (.cons "code" (.num 3) (.cons "message" (.str "revert") .nil)))
          .nil)))).outcome = .error ("RPC Error: " ++ "revert") ∧
    (makeRpcCall "eth_chainId" []
        (fun _ => .ok (.obj (.cons "error"
          (.obj (.cons "code" (.num 3) (.cons "message" (.str "revert") .nil)))
          .nil)))).requests = [mkRequest "eth_chainId" []] :=
  rpc_error_carries_message "eth_chainId" [] _ _ _ "revert" rfl rfl rfl rfl

/-! ## C3: error responses become error-flagged results at every tool -/

/-- C3: for every tool whose arguments pass validation, when the RPC
response body carries a truthy `error` object with a message, the handler
completes — it never throws past its boundary — with an
`isError`-flagged single text content whose text contains that message. -/
theorem tool_error_flagged_and_reported (t : Tool) (args p : ArgsMap) (T : Transport)
    (body err : Json) (msg : String)
    (hp : parseToolArgs t args = some p)
    (hT : T (mkRequest (toolMethod t) (buildParams t p)) = .ok body)
    (he : jsonGetField body "error" = some err)
    (ht : jsTruthy err = true)
    (hm : jsonGetField err "message" = some (.str msg)) :
    (runTool t args T).outcome =
      .completed (textResult (some (errHead t ++ ("RPC Error: " ++ msg))) true) ∧
    strHas (errHead t ++ ("RPC Error: " ++ msg)) msg = true := by
  refine ⟨?_, ?_⟩
  · have h1 := makeRpcCall_rpc_error (toolMethod t) (buildParams t p) hT he ht hm
    simpa using runTool_err hp h1
  · exact strHas_of_data _ _ ((errHead t).data ++ "RPC Error: ".data) []
      (by simp [String.data_append, List.append_assoc])

/-- Witness for C3: the balance tool on a concrete error body. -/
theorem tool_error_flagged_and_reported_witness :
    (runTool .eth_getBalance
        [("address", .str "0xaaaaaaaaaaaaaaaaaaaaaaaaaaaaaaaaaaaaaaaa")]
        (fun _ => .ok (.obj (.cons "error"
          (.obj (.cons "code" (.num (-32000)) (.cons "message" (.str "boom") .nil)))
          .nil)))).outcome = .completed
      (textResult (some ("Error: Failed to get balance. " ++ ("RPC Error: " ++ "boom"))) true) ∧
    strHas ("Error: Failed to get balance. " ++ ("RPC Error: " ++ "boom")) "boom" = true :=
  tool_error_flagged_and_reported .eth_getBalance
    [("address", .str "0xaaaaaaaaaaaaaaaaaaaaaaaaaaaaaaaaaaaaaaaa")]
    [("address", .str "0xaaaaaaaaaaaaaaaaaaaaaaaaaaaaaaaaaaaaaaaa"),
     ("blockParameter", .str "latest")]
    _ _ _ "boom" (by decide) rfl rfl rfl rfl

/-! ## C7: the block parameter defaults to "latest" -/

/-- C7: for the two tools with an optional block-parameter field, when the
caller omits it, the parameter list handed to the RPC client is
`[address, "latest"]` — the string `"latest"` in the block parameter's
position. -/
theorem block_parameter_defaults_to_latest :
    (∀ (args : ArgsMap) (addr : String) (T : Transport),
      lookupArg args "address" = some (.str addr) → matchesHexAddr addr = true →
      lookupArg args "blockParameter" = none →
      (runTool .eth_getBalance args T).requests =
        [mkRequest "eth_getBalance" [.str addr, .str "latest"]]) ∧
    (∀ (args : ArgsMap) (addr : String) (T : Transport),
      lookupArg args "address" = some (.str addr) → matchesHexAddr addr = true →
      lookupArg args "blockParameter" = none →
      (runTool .eth_getTransactionCount args T).requests =
        [mkRequest "eth_getTransactionCount" [.str addr, .str "latest"]]) := by
  constructor
  · intro args addr T ha hm hbp
    have hp : parseToolArgs .eth_getBalance args =
        some [("address", .str addr), ("blockParameter", .str "latest")] := by
      simp [parseToolArgs, reqPatternField, strFieldWithDefault, ha, hm, hbp]
    rw [runTool_requests T hp]
    rfl
  · intro args addr T ha hm hbp
    have hp : parseToolArgs .eth_getTransactionCount args =
        some [("address", .str addr), ("blockParameter", .str "latest")] := by
      simp [parseToolArgs, reqPatternField, strFieldWithDefault, ha, hm, hbp]
    rw [runTool_requests T hp]
    rfl

/-- Witness for C7 at a concrete address with the block parameter omitted. -/
theorem block_parameter_defaults_to_latest_witness :
    (runTool .eth_getBalance
        [("address", .str "0xaaaaaaaaaaaaaaaaaaaaaaaaaaaaaaaaaaaaaaaa")]
        (fun _ => .ok .null)).requests =
      [mkRequest "eth_getBalance"
        [.str "0xaaaaaaaaaaaaaaaaaaaaaaaaaaaaaaaaaaaaaaaa", .str "latest"]] ∧
    (runTool .eth_getTransactionCount
        [("address", .str "0xaaaaaaaaaaaaaaaaaaaaaaaaaaaaaaaaaaaaaaaa")]
        (fun _ => .ok .null)).requests =
      [mkRequest "eth_getTransactionCount"
        [.str "0xaaaaaaaaaaaaaaaaaaaaaaaaaaaaaaaaaaaaaaaa", .str "latest"]] :=
  ⟨block_parameter_defaults_to_latest.1 _ _ _ rfl (by decide) rfl,
   block_parameter_defaults_to_latest.2 _ _ _ rfl (by decide) rfl⟩

/-! ## C5: malformed addresses never reach the network -/

theorem matchesHexAddr_true {s : String} (h : matchesHexAddr s = true) :
    s.length = 42 ∧ listStarts s.data ['0', 'x'] = true ∧
    ∀ c ∈ s.data.drop 2, isHexDigitChar c = true := by
  unfold matchesHexAddr at h
  split at h
  · rename_i ds hds
    simp only [Bool.and_eq_true, decide_eq_true_eq, List.all_eq_true] at h
    refine ⟨?_, ?_, ?_⟩
    · show s.data.length = 42
      rw [hds]
      simp [h.1]
    · rw [hds]
      simp [listStarts]
    · rw [hds]
      intro c hc
      exact h.2 c hc
  · exact absurd h (by simp)

/-- C5: every malformed address input — wrong length, missing `0x`
prefix, or a non-hex character after it — makes every address-taking tool
(`eth_getBalance`, `eth_getTransactionCount`, `eth_estimateGas` with
`from`/`to`) reject before any network call: the request trace is empty,
so `makeRpcCall` was never invoked. -/
theorem malformed_address_no_request (t : Tool) (f : String) (args : ArgsMap)
    (s : String) (T : Transport)
    (htool : t ∈ [Tool.eth_getBalance, Tool.eth_getTransactionCount, Tool.eth_estimateGas])
    (hf : f ∈ addressFieldNames t)
    (hs : lookupArg args f = some (.str s))
    (hbad : s.length ≠ 42 ∨ listStarts s.data ['0', 'x'] = false ∨
      ∃ c ∈ s.data.drop 2, isHexDigitChar c = false) :
    (runTool t args T).requests = [] := by
  have hm : matchesHexAddr s = false := by
    cases hma : matchesHexAddr s
    · rfl
    · obtain ⟨h1, h2, h3⟩ := matchesHexAddr_true hma
      rcases hbad with hb | hb | ⟨c, hc, hcf⟩
      · exact absurd h1 hb
      · rw [h2] at hb
        exact Bool.noConfusion hb
      · rw [h3 c hc] at hcf
        exact Bool.noConfusion hcf
  simp only [List.mem_cons, List.not_mem_nil, or_false] at htool
  rcases htool with rfl | rfl | rfl
  · simp only [addressFieldNames, List.mem_singleton] at hf
    subst hf
    have hp : parseToolArgs .eth_getBalance args = none := by
      simp [parseToolArgs, reqPatternField, hs, hm]
    simp [runTool_rejected T hp]
  · simp only [addressFieldNames, List.mem_singleton] at hf
    subst hf
    have hp : parseToolArgs .eth_getTransactionCount args = none := by
      simp [parseToolArgs, reqPatternField, hs, hm]
    simp [runTool_rejected T hp]
  · simp only [addressFieldNames, List.mem_cons, List.not_mem_nil, or_false] at hf
    rcases hf with rfl | rfl
    · have hp : parseToolArgs .eth_estimateGas args = none := by
        simp [parseToolArgs, optPatternField, hs, hm]
      simp [runTool_rejected T hp]
    · have hp : parseToolArgs .eth_estimateGas args = none := by
        cases hfr : optPatternField args "from" matchesHexAddr with
        | none => simp [parseToolArgs, hfr]
        | some o => simp [parseToolArgs, hfr, optPatternField, hs, hm]
      simp [runTool_rejected T hp]

/-- Witness for C5: a five-character address string at each of the three
tools, and the other two malformation modes at the balance tool. -/
theorem malformed_address_no_request_witness :
    (runTool .eth_getBalance [("address", .str "0x123")]
      (fun _ => .ok .null)).requests = [] ∧
    (runTool .eth_getTransactionCount [("address", .str "0x123")]
      (fun _ => .ok .null)).requests = [] ∧
    (runTool .eth_estimateGas [("from", .str "0x123")]
      (fun _ => .ok .null)).requests = [] ∧
    (runTool .eth_estimateGas [("to", .str "0x123")]
      (fun _ => .ok .null)).requests = [] ∧
    (runTool .eth_getBalance
      [("address", .str "00aaaaaaaaaaaaaaaaaaaaaaaaaaaaaaaaaaaaaaaa")]
      (fun _ => .ok .null)).requests = [] ∧
    (runTool .eth_getBalance
      [("address", .str "0xzzaaaaaaaaaaaaaaaaaaaaaaaaaaaaaaaaaaaaaa")]
      (fun _ => .ok .null)).requests = [] :=
  ⟨malformed_address_no_request _ "address" _ "0x123" _ (by decide) (by decide) rfl
      (Or.inl (by decide)),
   malformed_address_no_request _ "address" _ "0x123" _ (by decide) (by decide) rfl
      (Or.inl (by decide)),
   malformed_address_no_request _ "from" _ "0x123" _ (by decide) (by decide) rfl
      (Or.inl (by decide)),
   malformed_address_no_request _ "to" _ "0x123" _ (by decide) (by decide) rfl
      (Or.inl (by decide)),
   malformed_address_no_request _ "address" _
      "00aaaaaaaaaaaaaaaaaaaaaaaaaaaaaaaaaaaaaaaa" _ (by decide) (by decide) rfl
      (Or.inr (Or.inl (by decide))),
   malformed_address_no_request _ "address" _
      "0xzzaaaaaaaaaaaaaaaaaaaaaaaaaaaaaaaaaaaaaa" _ (by decide) (by decide) rfl
      (Or.inr (Or.inr ⟨'z', by decide, by decide⟩))⟩

/-! ## C6, C10: the hex-quantity success path -/

theorem jsParseIntHex_hexstr {s : String} {ds : List Char}
    (hs : s.data = '0' :: 'x' :: ds) (hne : ds ≠ [])
    (hhex : ∀ c ∈ ds, isHexDigitChar c = true) :
    jsParseIntHex s = some (hexDigitsVal ds : Int) := by
  have ht : ds.takeWhile isHexDigitChar = ds := List.takeWhile_eq_self_iff.mpr hhex
  have hie : ds.isEmpty = false := by
    cases ds with
    | nil => exact absurd rfl hne
    | cons a b => rfl
  unfold jsParseIntHex
  rw [hs]
  show (jsParseIntHex.hexPrefixVal ('0' :: 'x' :: ds)).map (fun n => (n : Int)) =
    some (hexDigitsVal ds : Int)
  simp [jsParseIntHex.hexPrefixVal, ht, hie]

theorem roundDouble_small {n : Nat} (h : n < 2 ^ 53) : roundDouble n = n := by
  unfold roundDouble
  rw [if_pos h]

theorem roundDoubleInt_coe (n : Nat) (h : n < 2 ^ 53) :
    roundDoubleInt (n : Int) = (n : Int) := by
  unfold roundDoubleInt
  rw [if_neg (by omega), Int.natAbs_ofNat, roundDouble_small h]

theorem parsedDec_hexstr {s : String} {ds : List Char}
    (hs : s.data = '0' :: 'x' :: ds) (hne : ds ≠ [])
    (hhex : ∀ c ∈ ds, isHexDigitChar c = true)
    (hlt : hexDigitsVal ds < 2 ^ 53) :
    parsedDec (some (.str s)) = some (hexDigitsVal ds : Int) := by
  simp [parsedDec, jsDisplayOpt, jsDisplay, jsParseIntHex_hexstr hs hne hhex,
    roundDoubleInt_coe _ hlt]

theorem jsNumDisplay_coe (n : Nat) : jsNumDisplay (some (n : Int)) = String.mk (decChars n) := by
  show String.mk (intChars (n : Int)) = String.mk (decChars n)
  unfold intChars
  rw [if_neg (by omega), Int.natAbs_ofNat]

/-- Both the decimal rendering and the raw hex appear in a report of the
shape `a ++ dec ++ " (" ++ hexs ++ ")"`. -/
theorem strHas_both (a dec hexs : String) :
    strHas (a ++ dec ++ " (" ++ hexs ++ ")") dec = true ∧
    strHas (a ++ dec ++ " (" ++ hexs ++ ")") hexs = true :=
  ⟨strHas_of_data _ _ a.data ((" (" ++ hexs ++ ")").data)
      (by simp [String.data_append, List.append_assoc]),
   strHas_of_data _ _ ((a ++ dec ++ " (").data) (")".data)
      (by simp [String.data_append, List.append_assoc])⟩

/-- C6: every hex-quantity tool parses a successful hex string result as
a decimal number and reports the decimal value alongside the original hex
(stated for results below 2^53, where the double arithmetic of `parseInt`
is exact). -/
theorem hex_result_reported_decimal_and_hex (t : Tool) (args p : ArgsMap)
    (T : Transport) (s : String) (ds : List Char)
    (htool : t ∈ hexQuantityTools)
    (hp : parseToolArgs t args = some p)
    (hout : (makeRpcCall (toolMethod t) (buildParams t p) T).outcome = .ok (some (.str s)))
    (hs : s.data = '0' :: 'x' :: ds) (hne : ds ≠ [])
    (hhex : ∀ c ∈ ds, isHexDigitChar c = true)
    (hlt : hexDigitsVal ds < 2 ^ 53) :
    ∃ txt : String,
      (runTool t args T).outcome = .completed (textResult (some txt) false) ∧
      strHas txt (String.mk (decChars (hexDigitsVal ds))) = true ∧
      strHas txt s = true := by
  have hok := runTool_ok hp hout
  have hv := parsedDec_hexstr hs hne hhex hlt
  simp only [hexQuantityTools, List.mem_cons, List.not_mem_nil, or_false] at htool
  rcases htool with rfl | rfl | rfl | rfl | rfl | rfl
  · refine ⟨"Current Block Number: " ++ String.mk (decChars (hexDigitsVal ds)) ++
      " (" ++ s ++ ")", ?_, (strHas_both _ _ _).1, (strHas_both _ _ _).2⟩
    have he : okText .eth_blockNumber p (some (.str s)) =
        some ("Current Block Number: " ++ String.mk (decChars (hexDigitsVal ds)) ++
          " (" ++ s ++ ")") := by
      simp [okText, hv, jsNumDisplay_coe, jsDisplayOpt, jsDisplay]
    rw [he] at hok
    exact hok
  · refine ⟨"Chain ID: " ++ String.mk (decChars (hexDigitsVal ds)) ++
      " (" ++ s ++ ")", ?_, (strHas_both _ _ _).1, (strHas_both _ _ _).2⟩
    have he : okText .eth_chainId p (some (.str s)) =
        some ("Chain ID: " ++ String.mk (decChars (hexDigitsVal ds)) ++
          " (" ++ s ++ ")") := by
      simp [okText, hv, jsNumDisplay_coe, jsDisplayOpt, jsDisplay]
    rw [he] at hok
    exact hok
  · refine ⟨"Transaction Count for " ++ argDisp p "address" ++ " at " ++
      argDisp p "blockParameter" ++ " block: " ++
      String.mk (decChars (hexDigitsVal ds)) ++ " (" ++ s ++ ")", ?_,
      (strHas_both _ _ _).1, (strHas_both _ _ _).2⟩
    have he : okText .eth_getTransactionCount p (some (.str s)) =
        some ("Transaction Count for " ++ argDisp p "address" ++ " at " ++
          argDisp p "blockParameter" ++ " block: " ++
          String.mk (decChars (hexDigitsVal ds)) ++ " (" ++ s ++ ")") := by
      simp [okText, hv, jsNumDisplay_coe, jsDisplayOpt, jsDisplay]
    rw [he] at hok
    exact hok
  · refine ⟨"Transaction Count for Block Hash " ++ argDisp p "blockHash" ++ ": " ++
      String.mk (decChars (hexDigitsVal ds)) ++ " (" ++ s ++ ")", ?_,
      (strHas_both _ _ _).1, (strHas_both _ _ _).2⟩
    have he : okText .eth_getBlockTransactionCountByHash p (some (.str s)) =
        some ("Transaction Count for Block Hash " ++ argDisp p "blockHash" ++ ": " ++
          String.mk (decChars (hexDigitsVal ds)) ++ " (" ++ s ++ ")") := by
      simp [okText, hv, jsNumDisplay_coe, jsDisplayOpt, jsDisplay]
    rw [he] at hok
    exact hok
  · refine ⟨"Transaction Count for Block Number " ++ argDisp p "blockNumber" ++ ": " ++
      String.mk (decChars (hexDigitsVal ds)) ++ " (" ++ s ++ ")", ?_,
      (strHas_both _ _ _).1, (strHas_both _ _ _).2⟩
    have he : okText .eth_getBlockTransactionCountByNumber p (some (.str s)) =
        some ("Transaction Count for Block Number " ++ argDisp p "blockNumber" ++ ": " ++
          String.mk (decChars (hexDigitsVal ds)) ++ " (" ++ s ++ ")") := by
      simp [okText, hv, jsNumDisplay_coe, jsDisplayOpt, jsDisplay]
    rw [he] at hok
    exact hok
  · refine ⟨"Estimated Gas Required: " ++ String.mk (decChars (hexDigitsVal ds)) ++
      " (" ++ s ++ ")", ?_, (strHas_both _ _ _).1, (strHas_both _ _ _).2⟩
    have he : okText .eth_estimateGas p (some (.str s)) =
        some ("Estimated Gas Required: " ++ String.mk (decChars (hexDigitsVal ds)) ++
          " (" ++ s ++ ")") := by
      simp [okText, hv, jsNumDisplay_coe, jsDisplayOpt, jsDisplay]
    rw [he] at hok
    exact hok

/-- Witness for C6: the block-number tool on the result `"0x10"` reports
decimal `16` and hex `0x10`. -/
theorem hex_result_reported_decimal_and_hex_witness :
    ∃ txt : String,
      (runTool .eth_blockNumber []
        (fun _ => .ok (.obj (.cons "result" (.str "0x10") .nil)))).outcome =
        .completed (textResult (some txt) false) ∧
      strHas txt "16" = true ∧
      strHas txt "0x10" = true :=
  hex_result_reported_decimal_and_hex .eth_blockNumber [] [] _ "0x10" ['1', '0']
    (by decide) rfl rfl rfl (by decide) (by decide) (by decide)

/-- C10: every hex-quantity tool, on a successful RPC call whose result is
not a parseable hex string (`parseInt` yields `NaN`), still returns a
success (non-error-flagged) result whose text contains `NaN`. -/
theorem unparseable_result_reports_nan (t : Tool) (args p : ArgsMap)
    (T : Transport) (r : Option Json)
    (htool : t ∈ hexQuantityTools)
    (hp : parseToolArgs t args = some p)
    (hout : (makeRpcCall (toolMethod t) (buildParams t p) T).outcome = .ok r)
    (hnan : jsParseIntHex (jsDisplayOpt r) = none) :
    ∃ txt : String,
      (runTool t args T).outcome = .completed (textResult (some txt) false) ∧
      strHas txt "NaN" = true := by
  have hok := runTool_ok hp hout
  have hv : parsedDec r = none := by simp [parsedDec, hnan]
  simp only [hexQuantityTools, List.mem_cons, List.not_mem_nil, or_false] at htool
  rcases htool with rfl | rfl | rfl | rfl | rfl | rfl
  · exact ⟨_, by rw [show okText .eth_blockNumber p r =
        some ("Current Block Number: " ++ "NaN" ++ " (" ++ jsDisplayOpt r ++ ")")
        from by simp [okText, hv, jsNumDisplay]] at hok; exact hok,
      (strHas_both "Current Block Number: " "NaN" (jsDisplayOpt r)).1⟩
  · exact ⟨_, by rw [show okText .eth_chainId p r =
        some ("Chain ID: " ++ "NaN" ++ " (" ++ jsDisplayOpt r ++ ")")
        from by simp [okText, hv, jsNumDisplay]] at hok; exact hok,
      (strHas_both "Chain ID: " "NaN" (jsDisplayOpt r)).1⟩
  · exact ⟨_, by rw [show okText .eth_getTransactionCount p r =
        some ("Transaction Count for " ++ argDisp p "address" ++ " at " ++
          argDisp p "blockParameter" ++ " block: " ++ "NaN" ++ " (" ++ jsDisplayOpt r ++ ")")
        from by simp [okText, hv, jsNumDisplay]] at hok; exact hok,
      (strHas_both ("Transaction Count for " ++ argDisp p "address" ++ " at " ++
        argDisp p "blockParameter" ++ " block: ") "NaN" (jsDisplayOpt r)).1⟩
  · exact ⟨_, by rw [show okText .eth_getBlockTransactionCountByHash p r =
        some ("Transaction Count for Block Hash " ++ argDisp p "blockHash" ++ ": " ++
          "NaN" ++ " (" ++ jsDisplayOpt r ++ ")")
        from by simp [okText, hv, jsNumDisplay]] at hok; exact hok,
      (strHas_both ("Transaction Count for Block Hash " ++ argDisp p "blockHash" ++ ": ")
        "NaN" (jsDisplayOpt r)).1⟩
  · exact ⟨_, by rw [show okText .eth_getBlockTransactionCountByNumber p r =
        some ("Transaction Count for Block Number " ++ argDisp p "blockNumber" ++ ": " ++
          "NaN" ++ " (" ++ jsDisplayOpt r ++ ")")
        from by simp [okText, hv, jsNumDisplay]] at hok; exact hok,
      (strHas_both ("Transaction Count for Block Number " ++ argDisp p "blockNumber" ++ ": ")
        "NaN" (jsDisplayOpt r)).1⟩
  · exact ⟨_, by rw [show okText .eth_estimateGas p r =
        some ("Estimated Gas Required: " ++ "NaN" ++ " (" ++ jsDisplayOpt r ++ ")")
        from by simp [okText, hv, jsNumDisplay]] at hok; exact hok,
      (strHas_both "Estimated Gas Required: " "NaN" (jsDisplayOpt r)).1⟩

/-- Witness for C10: the block-number tool on a `null` result returns a
non-error result whose text contains `NaN`. -/
theorem unparseable_result_reports_nan_witness :
    ∃ txt : String,
      (runTool .eth_blockNumber []
        (fun _ => .ok (.obj (.cons "result" .null .nil)))).outcome =
        .completed (textResult (some txt) false) ∧
      strHas txt "NaN" = true :=
  unparseable_result_reports_nan .eth_blockNumber [] [] _ (some .null)
    (by decide) rfl rfl (by decide)

/-! ## C1: the balance report -/

theorem ethDisplay_coe (n : Nat) :
    ethDisplay (some (n : Int)) = toFixed4Dyadic (nearestDoubleRatio n (10 ^ 18)) := by
  show (if (n : Int) < 0 then
      "-" ++ toFixed4Dyadic (nearestDoubleRatio (n : Int).natAbs (10 ^ 18))
    else toFixed4Dyadic (nearestDoubleRatio (n : Int).natAbs (10 ^ 18))) =
    toFixed4Dyadic (nearestDoubleRatio n (10 ^ 18))
  rw [if_neg (by omega), Int.natAbs_ofNat]

set_option maxRecDepth 8000 in
/-- C1 counterexample: on the balance hex `"0x1000000000000001"`, whose
exact decimal interpretation is `1152921504606846977` (2^60 + 1), the
tool's text reports Wei `1152921504606846976`: `parseInt` yields the
nearest double, so the digit string of the exact value appears nowhere in
the returned text, refuting "a Wei integer equal to the exact decimal
interpretation of b" as stated over all valid inputs. -/
theorem balance_wei_inexact_counterexample :
    jsParseIntHex "0x1000000000000001" = some 1152921504606846977 ∧
    firstText (runTool .eth_getBalance
        [("address", .str "0xaaaaaaaaaaaaaaaaaaaaaaaaaaaaaaaaaaaaaaaa")]
        (fun _ => .ok (.obj (.cons "result" (.str "0x1000000000000001") .nil)))) =
      some ("Balance for 0xaaaaaaaaaaaaaaaaaaaaaaaaaaaaaaaaaaaaaaaa at block latest:" ++
        "\n- Wei: 1152921504606846976\n- ETH: 1.1529") ∧
    strHas ("Balance for 0xaaaaaaaaaaaaaaaaaaaaaaaaaaaaaaaaaaaaaaaa at block latest:" ++
        "\n- Wei: 1152921504606846976\n- ETH: 1.1529") "1152921504606846977" = false :=
  ⟨by decide, by decide, by decide⟩

/-- C1 amended: for every valid address, when the RPC call succeeds with a
hex string whose value is below 2^53, the balance text reports a Wei
integer equal to the exact decimal interpretation of the hex string, and
an ETH value obtained by dividing that Wei value by 10^18 in IEEE-754
double precision and rendering the quotient with `toFixed(4)`; at or
above 2^53 the Wei reported is the nearest double to the exact value. -/
theorem balance_reported_wei_eth (args p : ArgsMap) (T : Transport)
    (addr bp s : String) (ds : List Char)
    (hp : parseToolArgs .eth_getBalance args = some p)
    (ha : lookupArg p "address" = some (.str addr))
    (hb : lookupArg p "blockParameter" = some (.str bp))
    (hout : (makeRpcCall (toolMethod .eth_getBalance)
      (buildParams .eth_getBalance p) T).outcome = .ok (some (.str s)))
    (hs : s.data = '0' :: 'x' :: ds) (hne : ds ≠ [])
    (hhex : ∀ c ∈ ds, isHexDigitChar c = true)
    (hlt : hexDigitsVal ds < 2 ^ 53) :
    (runTool .eth_getBalance args T).outcome = .completed (textResult
      (some ("Balance for " ++ addr ++ " at block " ++ bp ++ ":\n- Wei: " ++
        String.mk (decChars (hexDigitsVal ds)) ++ "\n- ETH: " ++
        toFixed4Dyadic (nearestDoubleRatio (hexDigitsVal ds) (10 ^ 18)))) false) := by
  have hok := runTool_ok hp hout
  have hv := parsedDec_hexstr hs hne hhex hlt
  have he : okText .eth_getBalance p (some (.str s)) =
      some ("Balance for " ++ addr ++ " at block " ++ bp ++ ":\n- Wei: " ++
        String.mk (decChars (hexDigitsVal ds)) ++ "\n- ETH: " ++
        toFixed4Dyadic (nearestDoubleRatio (hexDigitsVal ds) (10 ^ 18))) := by
    simp [okText, hv, jsNumDisplay_coe, ethDisplay_coe, argDisp, ha, hb,
      jsDisplayOpt, jsDisplay]
  rw [he] at hok
  exact hok

/-- Witness for the amended C1 at the balance hex `"0x2540be400"`
(10^10 wei, below 2^53). -/
theorem balance_reported_wei_eth_witness :
    (runTool .eth_getBalance
        [("address", .str "0xaaaaaaaaaaaaaaaaaaaaaaaaaaaaaaaaaaaaaaaa")]
        (fun _ => .ok (.obj (.cons "result" (.str "0x2540be400") .nil)))).outcome =
      .completed (textResult
        (some ("Balance for " ++ "0xaaaaaaaaaaaaaaaaaaaaaaaaaaaaaaaaaaaaaaaa" ++
          " at block " ++ "latest" ++ ":\n- Wei: " ++
          String.mk (decChars (hexDigitsVal ['2', '5', '4', '0', 'b', 'e', '4', '0', '0'])) ++
          "\n- ETH: " ++
          toFixed4Dyadic (nearestDoubleRatio
            (hexDigitsVal ['2', '5', '4', '0', 'b', 'e', '4', '0', '0']) (10 ^ 18)))) false) :=
  balance_reported_wei_eth
    [("address", .str "0xaaaaaaaaaaaaaaaaaaaaaaaaaaaaaaaaaaaaaaaa")]
    [("address", .str "0xaaaaaaaaaaaaaaaaaaaaaaaaaaaaaaaaaaaaaaaa"),
     ("blockParameter", .str "latest")]
    _ _ "latest" "0x2540be400" ['2', '5', '4', '0', 'b', 'e', '4', '0', '0']
    (by decide) rfl rfl rfl rfl (by decide) (by decide) (by decide)

/-! ## C8: decimal digit lemmas -/

theorem decDigitsGo_fuel (n : Nat) : ∀ (f1 f2 : Nat) (acc : List Char), n < f1 → n < f2 →
    decDigitsGo f1 n acc = decDigitsGo f2 n acc := by
  induction n using Nat.strong_induction_on with
  | _ n ih =>
    intro f1 f2 acc h1 h2
    cases f1 with
    | zero => omega
    | succ fa =>
        cases f2 with
        | zero => omega
        | succ fb =>
            simp only [decDigitsGo]
            by_cases h : n < 10
            · simp [h]
            · simp only [if_neg h]
              exact ih (n / 10) (by omega) fa fb _ (by omega) (by omega)

theorem decDigitsGo_acc (f : Nat) : ∀ (n : Nat) (acc : List Char),
    decDigitsGo f n acc = decDigitsGo f n [] ++ acc := by
  induction f with
  | zero => intro n acc; rfl
  | succ fa ih =>
      intro n acc
      simp only [decDigitsGo]
      by_cases h : n < 10
      · simp [h]
      · simp only [if_neg h]
        rw [ih (n / 10) (decDigitChar (n % 10) :: acc), ih (n / 10) [decDigitChar (n % 10)]]
        simp

theorem decChars_unfold (n : Nat) :
    decChars n = (if n < 10 then [] else decChars (n / 10)) ++ [decDigitChar (n % 10)] := by
  unfold decChars
  by_cases h : n < 10
  · simp [decDigitsGo, h]
  · simp only [decDigitsGo, if_neg h]
    rw [decDigitsGo_acc, decDigitsGo_fuel (n / 10) n (n / 10 + 1) [] (by omega) (by omega)]
    rfl

theorem decDigitChar_isDigit (d : Nat) (h : d < 10) : isDigitChar (decDigitChar d) = true := by
  interval_cases d <;> decide

theorem decDigitChar_val (d : Nat) (h : d < 10) : (decDigitChar d).toNat - 48 = d := by
  interval_cases d <;> decide

theorem decChars_ne_nil (n : Nat) : decChars n ≠ [] := by
  rw [decChars_unfold]
  simp

theorem decChars_digits (n : Nat) : ∀ c ∈ decChars n, isDigitChar c = true := by
  induction n using Nat.strong_induction_on with
  | _ n ih =>
    rw [decChars_unfold]
    intro c hc
    rcases List.mem_append.mp hc with h | h
    · by_cases h10 : n < 10
      · simp [h10] at h
      · exact ih (n / 10) (by omega) c (by simpa [h10] using h)
    · rw [List.mem_singleton.mp h]
      exact decDigitChar_isDigit (n % 10) (Nat.mod_lt _ (by omega))

theorem decDigitsVal_snoc (l : List Char) (c : Char) :
    decDigitsVal (l ++ [c]) = decDigitsVal l * 10 + (c.toNat - 48) := by
  simp [decDigitsVal, List.foldl_append]

theorem decDigitsVal_decChars (n : Nat) : decDigitsVal (decChars n) = n := by
  induction n using Nat.strong_induction_on with
  | _ n ih =>
    rw [decChars_unfold, decDigitsVal_snoc, decDigitChar_val (n % 10) (Nat.mod_lt _ (by omega))]
    by_cases h : n < 10
    · simp only [if_pos h]
      show decDigitsVal [] * 10 + n % 10 = n
      simp [decDigitsVal]
      omega
    · simp only [if_neg h]
      rw [ih (n / 10) (by omega)]
      omega

theorem decChars_cons (n : Nat) : ∃ d t, decChars n = d :: t ∧ isDigitChar d = true := by
  cases h : decChars n with
  | nil => exact absurd h (decChars_ne_nil n)
  | cons d t => exact ⟨d, t, rfl, decChars_digits n d (h ▸ List.mem_cons_self _ _)⟩

theorem digitSpan_stop {l : List Char} (h : delimOk l = true) : digitSpan l = ([], l) := by
  cases l with
  | nil => rfl
  | cons c t =>
      simp only [delimOk, Bool.not_eq_true'] at h
      simp [digitSpan, h]

theorem digitSpan_run (ds : List Char) (hds : ∀ c ∈ ds, isDigitChar c = true)
    {rest : List Char} (hr : digitSpan rest = ([], rest)) :
    digitSpan (ds ++ rest) = (ds, rest) := by
  induction ds with
  | nil => simpa using hr
  | cons c t ih =>
      have hc := hds c (by simp)
      have ht := ih (fun x hx => hds x (by simp [hx]))
      simp [digitSpan, hc, ht]

/-! ## C8: string escape round trip -/

theorem lowerHexDigit_val (d : Nat) (h : d < 16) :
    hexDigitVal? (lowerHexDigitChar d) = some d := by
  interval_cases d <;> decide

theorem parseStringBody_plain {c : Char} (acc rest : List Char)
    (h1 : c ≠ '"') (h2 : c ≠ '\\') :
    parseStringBody acc (c :: rest) = parseStringBody (c :: acc) rest := by
  unfold parseStringBody
  rw [if_neg h1, if_neg h2]
  exact parseStringBody.eq_def (c :: acc) rest

theorem escChar_step (c : Char) (acc rest : List Char) :
    parseStringBody acc (escChar c ++ rest) = parseStringBody (c :: acc) rest := by
  by_cases h1 : c = '"'
  · subst h1; rfl
  by_cases h2 : c = '\\'
  · subst h2; rfl
  by_cases h3 : c = '\x08'
  · subst h3; rfl
  by_cases h4 : c = '\t'
  · subst h4; rfl
  by_cases h5 : c = '\n'
  · subst h5; rfl
  by_cases h6 : c = '\x0c'
  · subst h6; rfl
  by_cases h7 : c = '\r'
  · subst h7; rfl
  by_cases h8 : c.toNat < 32
  · have he : escChar c = ['\\', 'u', '0', '0',
        lowerHexDigitChar (c.toNat / 16), lowerHexDigitChar (c.toNat % 16)] := by
      simp [escChar, h1, h2, h3, h4, h5, h6, h7, h8]
    rw [he]
    show (match hexDigitVal? '0', hexDigitVal? '0',
        hexDigitVal? (lowerHexDigitChar (c.toNat / 16)),
        hexDigitVal? (lowerHexDigitChar (c.toNat % 16)) with
      | some a, some b, some d, some e =>
          parseStringBody (Char.ofNat (((a * 16 + b) * 16 + d) * 16 + e) :: acc) rest
      | _, _, _, _ => none) = parseStringBody (c :: acc) rest
    rw [lowerHexDigit_val (c.toNat / 16) (by omega), lowerHexDigit_val (c.toNat % 16) (by omega)]
    show parseStringBody
      (Char.ofNat (((0 * 16 + 0) * 16 + c.toNat / 16) * 16 + c.toNat % 16) :: acc) rest =
      parseStringBody (c :: acc) rest
    rw [show ((0 * 16 + 0) * 16 + c.toNat / 16) * 16 + c.toNat % 16 = c.toNat from by omega,
      Char.ofNat_toNat]
  · have he : escChar c = [c] := by
      simp [escChar, h1, h2, h3, h4, h5, h6, h7, h8]
    rw [he, List.singleton_append]
    exact parseStringBody_plain acc rest h1 h2

theorem parseStringBody_flat (l : List Char) : ∀ (acc rest : List Char),
    parseStringBody acc (l.flatMap escChar ++ '"' :: rest) =
      some (String.mk (acc.reverse ++ l), rest) := by
  induction l with
  | nil =>
      intro acc rest
      simp only [List.flatMap_nil, List.nil_append]
      unfold parseStringBody
      rw [if_pos rfl]
      simp
  | cons c t ih =>
      intro acc rest
      rw [List.flatMap_cons, List.append_assoc, escChar_step, ih]
      simp

theorem parseStringBody_quoted (s : String) (rest : List Char) :
    parseStringBody [] (s.data.flatMap escChar ++ '"' :: rest) = some (s, rest) := by
  rw [parseStringBody_flat]
  rfl

/-! ## C8: whitespace and dispatch lemmas -/

theorem skipWs_not_ws {c : Char} (h : isWsChar c = false) (l : List Char) :
    skipWs (c :: l) = c :: l := by
  simp [skipWs, h]

theorem skipWs_ws {c : Char} (h : isWsChar c = true) (l : List Char) :
    skipWs (c :: l) = skipWs l := by
  simp [skipWs, h]

theorem skipWs_spaces (n : Nat) (l : List Char) : skipWs (spacesL n ++ l) = skipWs l := by
  induction n with
  | zero => rfl
  | succ m ih =>
      show skipWs (' ' :: (spacesL m ++ l)) = skipWs l
      rw [skipWs_ws (by decide), ih]

theorem parseVal_ws_congr (f : Nat) {a b : List Char} (h : skipWs a = skipWs b) :
    parseVal f a = parseVal f b := by
  cases f with
  | zero => rfl
  | succ g => simp only [parseVal, h]

theorem parseArrTail_ws_congr (f : Nat) {a b : List Char} (h : skipWs a = skipWs b) :
    parseArrTail f a = parseArrTail f b := by
  cases f with
  | zero => rfl
  | succ g => simp only [parseArrTail, h]

theorem parseObjField_ws_congr (f : Nat) {a b : List Char} (h : skipWs a = skipWs b) :
    parseObjField f a = parseObjField f b := by
  cases f with
  | zero => rfl
  | succ g => simp only [parseObjField, h]

theorem parseObjTail_ws_congr (f : Nat) {a b : List Char} (h : skipWs a = skipWs b) :
    parseObjTail f a = parseObjTail f b := by
  cases f with
  | zero => rfl
  | succ g => simp only [parseObjTail, h]

theorem digit_not_special {c : Char} (h : isDigitChar c = true) :
    isWsChar c = false ∧ c ≠ ']' ∧ c ≠ '}' ∧ c ≠ ',' ∧
    c ≠ 'n' ∧ c ≠ 't' ∧ c ≠ 'f' ∧ c ≠ '"' ∧ c ≠ '[' ∧ c ≠ '{' ∧ c ≠ '-' := by
  simp only [isDigitChar, Bool.and_eq_true, decide_eq_true_eq] at h
  obtain ⟨hl, hr⟩ := h
  have w1 : c ≠ ' ' := fun e => absurd hl (by subst e; decide)
  have w2 : c ≠ '\n' := fun e => absurd hl (by subst e; decide)
  have w3 : c ≠ '\t' := fun e => absurd hl (by subst e; decide)
  have w4 : c ≠ '\r' := fun e => absurd hl (by subst e; decide)
  refine ⟨by simp [isWsChar, w1, w2, w3, w4], ?_, ?_, ?_, ?_, ?_, ?_, ?_, ?_, ?_, ?_⟩
  · exact fun e => absurd hr (by subst e; decide)
  · exact fun e => absurd hr (by subst e; decide)
  · exact fun e => absurd hl (by subst e; decide)
  · exact fun e => absurd hr (by subst e; decide)
  · exact fun e => absurd hr (by subst e; decide)
  · exact fun e => absurd hr (by subst e; decide)
  · exact fun e => absurd hl (by subst e; decide)
  · exact fun e => absurd hr (by subst e; decide)
  · exact fun e => absurd hr (by subst e; decide)
  · exact fun e => absurd hl (by subst e; decide)

theorem emitVal_head (ind : Nat) (v : Json) :
    ∃ c t, emitVal ind v = c :: t ∧ isWsChar c = false ∧ c ≠ ']' ∧ c ≠ '}' ∧ c ≠ ',' := by
  cases v with
  | null => exact ⟨'n', _, rfl, by decide, by decide, by decide, by decide⟩
  | bool b =>
      cases b with
      | false => exact ⟨'f', _, rfl, by decide, by decide, by decide, by decide⟩
      | true => exact ⟨'t', _, rfl, by decide, by decide, by decide, by decide⟩
  | num n =>
      by_cases hn : n < 0
      · exact ⟨'-', decChars n.natAbs, by simp [emitVal, intChars, hn],
          by decide, by decide, by decide, by decide⟩
      · obtain ⟨d, t, hd, hdig⟩ := decChars_cons n.natAbs
        obtain ⟨w, r1, r2, r3, _⟩ := digit_not_special hdig
        exact ⟨d, t, by simp [emitVal, intChars, hn, hd], w, r1, r2, r3⟩
  | str s => exact ⟨'"', _, rfl, by decide, by decide, by decide, by decide⟩
  | arr xs =>
      cases xs with
      | nil => exact ⟨'[', _, rfl, by decide, by decide, by decide, by decide⟩
      | cons v t => exact ⟨'[', _, rfl, by decide, by decide, by decide, by decide⟩
  | obj fs =>
      cases fs with
      | nil => exact ⟨'{', _, rfl, by decide, by decide, by decide, by decide⟩
      | cons k v t => exact ⟨'{', _, rfl, by decide, by decide, by decide, by decide⟩

theorem skipWs_emitVal (ind : Nat) (v : Json) (x : List Char) :
    skipWs (emitVal ind v ++ x) = emitVal ind v ++ x := by
  obtain ⟨c, t, he, hws, _, _, _⟩ := emitVal_head ind v
  rw [he, List.cons_append]
  exact skipWs_not_ws hws _

theorem spacesL_length (n : Nat) : (spacesL n).length = n := by
  induction n with
  | zero => rfl
  | succ m ih => simp [spacesL, ih]

theorem emitElems_cons (ind : Nat) (v : Json) (t : JArr) :
    emitElems ind (.cons v t) = spacesL ind ++ (emitVal ind v ++ emitElemsSep ind t) := by
  cases t <;> simp [emitElems, emitElemsSep, List.append_assoc]

theorem emitFields_cons (ind : Nat) (k : String) (v : Json) (t : JObj) :
    emitFields ind (.cons k v t) = spacesL ind ++ (quotedChars k ++ ':' :: ' ' ::
      (emitVal ind v ++ emitFieldsSep ind t)) := by
  cases t <;> simp [emitFields, emitFieldsSep, List.append_assoc]

/-! ## C8: the round trip, by mutual structural induction -/

theorem delimOk_elemsSep (ind : Nat) (t : JArr) (x : List Char) :
    delimOk (emitElemsSep ind t ++ '\n' :: x) = true := by
  cases t <;> rfl

theorem delimOk_fieldsSep (ind : Nat) (t : JObj) (x : List Char) :
    delimOk (emitFieldsSep ind t ++ '\n' :: x) = true := by
  cases t <;> rfl

mutual

theorem rtVal (v : Json) : ∀ (f ind : Nat) (rest : List Char),
    (emitVal ind v).length < f → delimOk rest = true →
    parseVal f (emitVal ind v ++ rest) = some (v, rest) := by
  cases v with
  | null =>
      intro f ind rest hf _
      cases f with
      | zero => omega
      | succ g =>
          simp only [parseVal]
          rw [show emitVal ind Json.null ++ rest = 'n' :: 'u' :: 'l' :: 'l' :: rest from rfl,
            skipWs_not_ws (by decide)]
          rfl
  | bool b =>
      intro f ind rest hf _
      cases f with
      | zero => omega
      | succ g =>
          cases b with
          | true =>
              simp only [parseVal]
              rw [show emitVal ind (Json.bool true) ++ rest =
                't' :: 'r' :: 'u' :: 'e' :: rest from rfl, skipWs_not_ws (by decide)]
              rfl
          | false =>
              simp only [parseVal]
              rw [show emitVal ind (Json.bool false) ++ rest =
                'f' :: 'a' :: 'l' :: 's' :: 'e' :: rest from rfl, skipWs_not_ws (by decide)]
              rfl
  | num n =>
      intro f ind rest hf hdel
      cases f with
      | zero => omega
      | succ g =>
          by_cases hn : n < 0
          · have he : emitVal ind (Json.num n) = '-' :: decChars n.natAbs := by
              simp [emitVal, intChars, hn]
            simp only [parseVal]
            rw [he, List.cons_append, skipWs_not_ws (by decide)]
            show (match digitSpan (decChars n.natAbs ++ rest) with
              | ([], _) => none
              | (ds, r2) => some (Json.num (-(decDigitsVal ds : Int)), r2)) =
              some (Json.num n, rest)
            obtain ⟨d, t1, hd, hdig⟩ := decChars_cons n.natAbs
            rw [digitSpan_run (decChars n.natAbs) (decChars_digits n.natAbs)
              (digitSpan_stop hdel), hd]
            show some (Json.num (-(decDigitsVal (d :: t1) : Int)), rest) =
              some (Json.num n, rest)
            rw [← hd, decDigitsVal_decChars]
            rw [show -((n.natAbs : Nat) : Int) = n from by omega]
          · have he : emitVal ind (Json.num n) = decChars n.natAbs := by
              simp [emitVal, intChars, hn]
            obtain ⟨d, t1, hd, hdig⟩ := decChars_cons n.natAbs
            obtain ⟨w, e1, e2, e3, e4, e5, e6, e7, e8, e9, e10⟩ := digit_not_special hdig
            simp only [parseVal]
            simp only [he, hd, List.cons_append, skipWs_not_ws w]
            rw [if_neg e4, if_neg e5, if_neg e6, if_neg e7, if_neg e8, if_neg e9,
              if_neg e10, if_pos hdig]
            show (match digitSpan (d :: (t1 ++ rest)) with
              | ([], _) => none
              | (ds, r2) => some (Json.num ((decDigitsVal ds : Nat) : Int), r2)) =
              some (Json.num n, rest)
            rw [show d :: (t1 ++ rest) = (d :: t1) ++ rest from rfl,
              digitSpan_run (d :: t1) (by rw [← hd]; exact decChars_digits n.natAbs)
                (digitSpan_stop hdel)]
            show some (Json.num ((decDigitsVal (d :: t1) : Nat) : Int), rest) =
              some (Json.num n, rest)
            rw [← hd, decDigitsVal_decChars]
            rw [show ((n.natAbs : Nat) : Int) = n from by omega]
  | str s =>
      intro f ind rest hf _
      cases f with
      | zero => omega
      | succ g =>
          simp only [parseVal]
          rw [show emitVal ind (Json.str s) ++ rest =
            '"' :: ((s.data.flatMap escChar ++ ['"']) ++ rest) from rfl,
            skipWs_not_ws (by decide)]
          show (parseStringBody [] ((s.data.flatMap escChar ++ ['"']) ++ rest)).map
            (fun p => (Json.str p.1, p.2)) = some (Json.str s, rest)
          rw [List.append_assoc, List.singleton_append, parseStringBody_quoted]
          rfl
  | arr xs =>
      cases xs with
      | nil =>
          intro f ind rest hf _
          cases f with
          | zero => omega
          | succ g =>
              simp only [parseVal]
              rw [show emitVal ind (Json.arr .nil) ++ rest = '[' :: (']' :: rest) from rfl,
                skipWs_not_ws (by decide)]
              rfl
      | cons v t =>
          intro f ind rest hf _
          cases f with
          | zero => omega
          | succ g =>
              have hemit : emitVal ind (Json.arr (.cons v t)) ++ rest =
                  '[' :: ('\n' :: (emitElems (ind + 2) (.cons v t) ++
                    ('\n' :: (spacesL ind ++ (']' :: rest))))) := by
                simp [emitVal, List.append_assoc]
              have hE : (emitElems (ind + 2) (.cons v t)).length =
                  (ind + 2) + ((emitVal (ind + 2) v).length +
                    (emitElemsSep (ind + 2) t).length) := by
                rw [emitElems_cons]
                simp [spacesL_length]
              have hfull : (emitVal ind (Json.arr (.cons v t))).length =
                  2 + ((emitElems (ind + 2) (.cons v t)).length + (2 + ind)) := by
                simp [emitVal, spacesL_length]
                omega
              have hdel2 := delimOk_elemsSep (ind + 2) t (spacesL ind ++ (']' :: rest))
              simp only [parseVal]
              rw [hemit, skipWs_not_ws (by decide)]
              show (match skipWs ('\n' :: (emitElems (ind + 2) (.cons v t) ++
                  ('\n' :: (spacesL ind ++ (']' :: rest))))) with
                | [] => none
                | c2 :: r2 =>
                    if c2 = ']' then some (Json.arr .nil, r2)
                    else
                      match parseVal g (c2 :: r2) with
                      | some (v1, r3) =>
                          match parseArrTail g r3 with
                          | some (t1, r4) => some (Json.arr (.cons v1 t1), r4)
                          | none => none
                      | none => none) = some (Json.arr (.cons v t), rest)
              have hskip : skipWs ('\n' :: (emitElems (ind + 2) (.cons v t) ++
                  ('\n' :: (spacesL ind ++ (']' :: rest))))) =
                  emitVal (ind + 2) v ++ (emitElemsSep (ind + 2) t ++
                    ('\n' :: (spacesL ind ++ (']' :: rest)))) := by
                rw [skipWs_ws (by decide), emitElems_cons]
                simp only [List.append_assoc]
                rw [skipWs_spaces, skipWs_emitVal]
              rw [hskip]
              obtain ⟨c1, t1, he1, hws1, hb1, _, _⟩ := emitVal_head (ind + 2) v
              have hv := rtVal v g (ind + 2)
                (emitElemsSep (ind + 2) t ++ ('\n' :: (spacesL ind ++ (']' :: rest))))
                (by omega) hdel2
              have ht := rtArrTail t g (ind + 2) ind rest (by omega)
              rw [he1, List.cons_append] at hv
              simp only [he1, List.cons_append]
              rw [if_neg hb1, hv]
              simp only [ht]
  | obj fs =>
      cases fs with
      | nil =>
          intro f ind rest hf _
          cases f with
          | zero => omega
          | succ g =>
              simp only [parseVal]
              rw [show emitVal ind (Json.obj .nil) ++ rest = '{' :: ('}' :: rest) from rfl,
                skipWs_not_ws (by decide)]
              rfl
      | cons k v t =>
          intro f ind rest hf _
          cases f with
          | zero => omega
          | succ g =>
              have hemit : emitVal ind (Json.obj (.cons k v t)) ++ rest =
                  '{' :: ('\n' :: (emitFields (ind + 2) (.cons k v t) ++
                    ('\n' :: (spacesL ind ++ ('}' :: rest))))) := by
                simp [emitVal, List.append_assoc]
              have hF : (emitFields (ind + 2) (.cons k v t)).length =
                  (ind + 2) + ((quotedChars k).length + (2 + ((emitVal (ind + 2) v).length +
                    (emitFieldsSep (ind + 2) t).length))) := by
                rw [emitFields_cons]
                simp [spacesL_length]
                omega
              have hfull : (emitVal ind (Json.obj (.cons k v t))).length =
                  2 + ((emitFields (ind + 2) (.cons k v t)).length + (2 + ind)) := by
                simp [emitVal, spacesL_length]
                omega
              have hdel2 := delimOk_fieldsSep (ind + 2) t (spacesL ind ++ ('}' :: rest))
              simp only [parseVal]
              rw [hemit, skipWs_not_ws (by decide)]
              show (match skipWs ('\n' :: (emitFields (ind + 2) (.cons k v t) ++
                  ('\n' :: (spacesL ind ++ ('}' :: rest))))) with
                | [] => none
                | c2 :: r2 =>
                    if c2 = '}' then some (Json.obj .nil, r2)
                    else
                      match parseObjField g (c2 :: r2) with
                      | some (k1, v1, r3) =>
                          match parseObjTail g r3 with
                          | some (t1, r4) => some (Json.obj (.cons k1 v1 t1), r4)
                          | none => none
                      | none => none) = some (Json.obj (.cons k v t), rest)
              have hskip : skipWs ('\n' :: (emitFields (ind + 2) (.cons k v t) ++
                  ('\n' :: (spacesL ind ++ ('}' :: rest))))) =
                  '"' :: (k.data.flatMap escChar ++ ('"' :: (':' :: (' ' ::
                    (emitVal (ind + 2) v ++ (emitFieldsSep (ind + 2) t ++
                      ('\n' :: (spacesL ind ++ ('}' :: rest))))))))) := by
                rw [skipWs_ws (by decide), emitFields_cons]
                simp only [List.append_assoc, List.cons_append]
                rw [skipWs_spaces]
                show skipWs ('"' :: ((k.data.flatMap escChar ++ ['"']) ++ (':' :: ' ' ::
                  (emitVal (ind + 2) v ++ (emitFieldsSep (ind + 2) t ++
                    ('\n' :: (spacesL ind ++ ('}' :: rest)))))))) = _
                rw [skipWs_not_ws (by decide)]
                simp only [List.append_assoc, List.cons_append, List.singleton_append,
              List.nil_append]
              have hv := rtObjField v g (ind + 2) k
                (emitFieldsSep (ind + 2) t ++ ('\n' :: (spacesL ind ++ ('}' :: rest))))
                (by omega) hdel2
              have ht := rtObjTail t g (ind + 2) ind rest (by omega)
              rw [hskip]
              show (match parseObjField g ('"' :: (k.data.flatMap escChar ++ ('"' :: (':' ::
                  (' ' :: (emitVal (ind + 2) v ++ (emitFieldsSep (ind + 2) t ++
                    ('\n' :: (spacesL ind ++ ('}' :: rest)))))))))) with
                | some (k1, v1, r3) =>
                    match parseObjTail g r3 with
                    | some (t1, r4) => some (Json.obj (JObj.cons k1 v1 t1), r4)
                    | none => none
                | none => none) = some (Json.obj (JObj.cons k v t), rest)
              rw [hv]
              simp only [ht]
termination_by 2 * sizeOf v

theorem rtArrTail (t : JArr) : ∀ (f ind m : Nat) (rest : List Char),
    (emitElemsSep ind t).length + 1 < f →
    parseArrTail f (emitElemsSep ind t ++ ('\n' :: (spacesL m ++ (']' :: rest)))) =
      some (t, rest) := by
  cases t with
  | nil =>
      intro f ind m rest hf
      cases f with
      | zero => omega
      | succ g =>
          show parseArrTail (g + 1) ('\n' :: (spacesL m ++ (']' :: rest))) =
            some (JArr.nil, rest)
          simp only [parseArrTail]
          rw [skipWs_ws (by decide), skipWs_spaces, skipWs_not_ws (by decide)]
          rfl
  | cons v2 t2 =>
      intro f ind m rest hf
      cases f with
      | zero => omega
      | succ g =>
          have hlen : (emitElemsSep ind (.cons v2 t2)).length =
              2 + (ind + ((emitVal ind v2).length + (emitElemsSep ind t2).length)) := by
            show (',' :: '\n' :: emitElems ind (.cons v2 t2)).length = _
            rw [emitElems_cons]
            simp [spacesL_length]
            omega
          have hdel2 := delimOk_elemsSep ind t2 (spacesL m ++ (']' :: rest))
          show parseArrTail (g + 1) (',' :: '\n' :: (emitElems ind (.cons v2 t2) ++
            ('\n' :: (spacesL m ++ (']' :: rest))))) = some (JArr.cons v2 t2, rest)
          simp only [parseArrTail]
          rw [skipWs_not_ws (by decide)]
          show (match parseVal g ('\n' :: (emitElems ind (.cons v2 t2) ++
              ('\n' :: (spacesL m ++ (']' :: rest))))) with
            | some (v1, r2) =>
                match parseArrTail g r2 with
                | some (t1, r3) => some (JArr.cons v1 t1, r3)
                | none => none
            | none => none) = some (JArr.cons v2 t2, rest)
          have hskip : skipWs ('\n' :: (emitElems ind (.cons v2 t2) ++
              ('\n' :: (spacesL m ++ (']' :: rest))))) =
              skipWs (emitVal ind v2 ++ (emitElemsSep ind t2 ++
                ('\n' :: (spacesL m ++ (']' :: rest))))) := by
            rw [skipWs_ws (by decide), emitElems_cons]
            simp only [List.append_assoc]
            rw [skipWs_spaces]
          rw [parseVal_ws_congr g hskip]
          have hv := rtVal v2 g ind
            (emitElemsSep ind t2 ++ ('\n' :: (spacesL m ++ (']' :: rest))))
            (by omega) hdel2
          have ht := rtArrTail t2 g ind m rest (by omega)
          rw [hv]
          simp only [ht]
termination_by 2 * sizeOf t

theorem rtObjField (v : Json) : ∀ (f ind : Nat) (k : String) (rest : List Char),
    (emitVal ind v).length + 1 < f → delimOk rest = true →
    parseObjField f ('"' :: (k.data.flatMap escChar ++
      ('"' :: (':' :: (' ' :: (emitVal ind v ++ rest)))))) = some (k, v, rest) := by
  intro f ind k rest hf hdel
  cases f with
  | zero => omega
  | succ g =>
      simp only [parseObjField]
      rw [skipWs_not_ws (by decide)]
      show (match parseStringBody [] (k.data.flatMap escChar ++
          ('"' :: (':' :: (' ' :: (emitVal ind v ++ rest))))) with
        | some (k1, r1) =>
            match skipWs r1 with
            | ':' :: r2 =>
                match parseVal g r2 with
                | some (v1, r3) => some (k1, v1, r3)
                | none => none
            | _ => none
        | none => none) = some (k, v, rest)
      rw [parseStringBody_quoted]
      show (match parseVal g (' ' :: (emitVal ind v ++ rest)) with
        | some (v1, r3) => some (k, v1, r3)
        | none => none) = some (k, v, rest)
      rw [parseVal_ws_congr g (skipWs_ws (by decide) (emitVal ind v ++ rest)),
        rtVal v g ind rest (by omega) hdel]
termination_by 2 * sizeOf v + 1

theorem rtObjTail (t : JObj) : ∀ (f ind m : Nat) (rest : List Char),
    (emitFieldsSep ind t).length + 1 < f →
    parseObjTail f (emitFieldsSep ind t ++ ('\n' :: (spacesL m ++ ('}' :: rest)))) =
      some (t, rest) := by
  cases t with
  | nil =>
      intro f ind m rest hf
      cases f with
      | zero => omega
      | succ g =>
          show parseObjTail (g + 1) ('\n' :: (spacesL m ++ ('}' :: rest))) =
            some (JObj.nil, rest)
          simp only [parseObjTail]
          rw [skipWs_ws (by decide), skipWs_spaces, skipWs_not_ws (by decide)]
          rfl
  | cons k2 v2 t2 =>
      intro f ind m rest hf
      cases f with
      | zero => omega
      | succ g =>
          have hlen : (emitFieldsSep ind (.cons k2 v2 t2)).length =
              2 + (ind + ((quotedChars k2).length + (2 + ((emitVal ind v2).length +
                (emitFieldsSep ind t2).length)))) := by
            show (',' :: '\n' :: emitFields ind (.cons k2 v2 t2)).length = _
            rw [emitFields_cons]
            simp [spacesL_length]
            omega
          have hdel2 := delimOk_fieldsSep ind t2 (spacesL m ++ ('}' :: rest))
          show parseObjTail (g + 1) (',' :: '\n' :: (emitFields ind (.cons k2 v2 t2) ++
            ('\n' :: (spacesL m ++ ('}' :: rest))))) = some (JObj.cons k2 v2 t2, rest)
          simp only [parseObjTail]
          rw [skipWs_not_ws (by decide)]
          show (match parseObjField g ('\n' :: (emitFields ind (.cons k2 v2 t2) ++
              ('\n' :: (spacesL m ++ ('}' :: rest))))) with
            | some (k1, v1, r2) =>
                match parseObjTail g r2 with
                | some (t1, r3) => some (JObj.cons k1 v1 t1, r3)
                | none => none
            | none => none) = some (JObj.cons k2 v2 t2, rest)
          have hskip : skipWs ('\n' :: (emitFields ind (.cons k2 v2 t2) ++
              ('\n' :: (spacesL m ++ ('}' :: rest))))) =
              skipWs ('"' :: (k2.data.flatMap escChar ++ ('"' :: (':' :: (' ' ::
                (emitVal ind v2 ++ (emitFieldsSep ind t2 ++
                  ('\n' :: (spacesL m ++ ('}' :: rest)))))))))) := by
            rw [skipWs_ws (by decide), emitFields_cons]
            simp only [List.append_assoc, List.cons_append]
            rw [skipWs_spaces]
            show skipWs ('"' :: ((k2.data.flatMap escChar ++ ['"']) ++ (':' :: ' ' ::
              (emitVal ind v2 ++ (emitFieldsSep ind t2 ++
                ('\n' :: (spacesL m ++ ('}' :: rest)))))))) = _
            rw [skipWs_not_ws (by decide), skipWs_not_ws (by decide)]
            simp only [List.append_assoc, List.cons_append, List.singleton_append,
              List.nil_append]
          rw [parseObjField_ws_congr g hskip]
          have hv := rtObjField v2 g ind k2
            (emitFieldsSep ind t2 ++ ('\n' :: (spacesL m ++ ('}' :: rest))))
            (by omega) hdel2
          have ht := rtObjTail t2 g ind m rest (by omega)
          rw [hv]
          simp only [ht]
termination_by 2 * sizeOf t

end

/-! ## C8: structured tools emit JSON text reproducing the result -/

theorem jsonParse_of_parseVal (s : String) (v : Json)
    (h : parseVal (s.data.length + 1) s.data = some (v, [])) :
    jsonParse s = some v := by
  unfold jsonParse
  rw [h]
  rfl

theorem jsonParse_stringify (v : Json) :
    jsonParse (jsonStringifyIndent2 v) = some v := by
  apply jsonParse_of_parseVal
  show parseVal ((emitVal 0 v).length + 1) (emitVal 0 v) = some (v, [])
  have h := rtVal v ((emitVal 0 v).length + 1) 0 [] (Nat.lt_succ_self _) rfl
  rw [List.append_nil] at h
  exact h

theorem okText_structured (t : Tool) (p : ArgsMap) (r : Option Json)
    (ht : t ∈ structuredTools) :
    okText t p r = r.map jsonStringifyIndent2 := by
  simp only [structuredTools, List.mem_cons, List.not_mem_nil, or_false] at ht
  rcases ht with rfl | rfl | rfl | rfl | rfl | rfl | rfl | rfl | rfl | rfl <;> rfl

/-- C8: every structured-result tool (block, transaction, receipt, node-list,
network-account and cycle lookups), on a successful RPC call whose `result`
is the JSON value `v`, completes without the error flag and with exactly the
text `JSON.stringify(v, null, 2)`, and `JSON.parse` of that text yields `v`
back verbatim. -/
theorem structured_tools_roundtrip (t : Tool) (args p : ArgsMap)
    (T : Transport) (v : Json)
    (htool : t ∈ structuredTools)
    (hp : parseToolArgs t args = some p)
    (hout : (makeRpcCall (toolMethod t) (buildParams t p) T).outcome = .ok (some v)) :
    (runTool t args T).outcome =
      .completed (textResult (some (jsonStringifyIndent2 v)) false) ∧
    jsonParse (jsonStringifyIndent2 v) = some v := by
  constructor
  · have hok := runTool_ok hp hout
    rw [okText_structured t p (some v) htool] at hok
    exact hok
  · exact jsonParse_stringify v

theorem structured_tools_roundtrip_witness :
    (runTool .shardeum_getNodeList []
      (fun _ => .ok (.obj (.cons "result"
        (.obj (.cons "nodes" (.arr (.cons (.obj (.cons "id" (.str "a1") .nil)) .nil))
          (.cons "total" (.num 7) .nil))) .nil)))).outcome =
      .completed (textResult (some (jsonStringifyIndent2
        (.obj (.cons "nodes" (.arr (.cons (.obj (.cons "id" (.str "a1") .nil)) .nil))
          (.cons "total" (.num 7) .nil))))) false) ∧
    jsonParse (jsonStringifyIndent2
      (.obj (.cons "nodes" (.arr (.cons (.obj (.cons "id" (.str "a1") .nil)) .nil))
        (.cons "total" (.num 7) .nil)))) = some
      (.obj (.cons "nodes" (.arr (.cons (.obj (.cons "id" (.str "a1") .nil)) .nil))
        (.cons "total" (.num 7) .nil))) :=
  structured_tools_roundtrip .shardeum_getNodeList []
    [("page", .num 1), ("limit", .num 100)] _ _ (by decide) rfl rfl

end ShardeumMCP
